import Mathlib

/-!
Verification development for the task-orchestration core of the oka-ai
repository.  The definitions below are a shallow embedding of the
TypeScript sources, chiefly src/autonomous-v3.ts (output validation,
dependency-install escalation, and the task-graph engine loop) and the
background-task queue of src/relay.ts.

Modelling conventions:
- Untrusted model output that has been JSON-parsed is represented by the
  Json inductive below; JSON.parse itself is treated as an opaque step,
  so validators receive an Option Json (none meaning the parse failed in
  parseJsonObject).
- JavaScript property access on null throws a TypeError; the planner
  validator therefore returns Except Unit, with .error modelling an
  uncaught exception.  The executor and critic validators never access a
  field of a possibly-null value without a guard, so they are total.
- Object mutation in the TypeScript engine is translated to functional
  updates keyed by the position of the selected node in the nodes list.
- File persistence (saveTaskGraph), the run ledger, wall-clock
  timestamps and the random run id are I/O effects that do not influence
  any control-flow decision of the engine; they are omitted.  The
  install-requirements document, which claims quantify over, is carried
  in the engine state as a list of structured entries.
- Model calls (planner, executor, critic, replanner) and the shell
  invocation of the installer are external; each loop iteration receives
  their raw results from an oracle.
-/

namespace Oka

/-- JSON values as produced by JSON.parse (numbers are modelled as
integers; no claim depends on fractional numbers). -/
inductive Json where
  | null : Json
  | bool (b : Bool) : Json
  | num (n : Int) : Json
  | str (s : String) : Json
  | arr (xs : List Json) : Json
  | obj (kvs : List (String × Json)) : Json

/-- Discriminator for the JSON null value. -/
def Json.isNull : Json → Bool
  | .null => true
  | _ => false

/-- Property lookup: returns the value of a key of a JSON object.  On
non-objects (including arrays) it returns none, matching an undefined
property access in JavaScript.  JSON.parse keeps the last of duplicate
keys, hence the getLast?. -/
def Json.getField : Json → String → Option Json
  | .obj kvs, k => ((kvs.filter (fun p => p.1 = k)).getLast?).map (fun p => p.2)
  | _, _ => none

/-- JavaScript truthiness of an optional JSON value (undefined is
modelled by none). -/
def jsTruthy : Option Json → Bool
  | none => false
  | some .null => false
  | some (.bool b) => b
  | some (.num n) => decide (n ≠ 0)
  | some (.str s) => decide (s ≠ "")
  | some (.arr _) => true
  | some (.obj _) => true

/-- Lowercase a string character by character.  The TypeScript code uses
String.prototype.toLowerCase; for the ASCII identifiers this code
manipulates the two agree. -/
def strToLower (s : String) : String :=
  String.mk (s.toList.map Char.toLower)

/-- Trim as in JavaScript String.prototype.trim: whitespace removed
from both ends.  Implemented over character lists so that it reduces
inside the kernel. -/
def jsTrim (s : String) : String :=
  String.mk (((s.toList.dropWhile Char.isWhitespace).reverse.dropWhile Char.isWhitespace).reverse)

/-- List-level string prefix test, reducing inside the kernel. -/
def strStartsWith (s pre : String) : Bool :=
  pre.toList.isPrefixOf s.toList

/-- A word character in the sense of the JavaScript regex class. -/
def isWordChar (c : Char) : Bool :=
  c.isAlpha || c.isDigit || c = '_'

/-- Maximal runs of word characters of a string, in order. -/
def wordRunsAux : List Char → List Char → List String
  | [], acc => if acc.isEmpty then [] else [String.mk acc.reverse]
  | c :: cs, acc =>
    if isWordChar c then wordRunsAux cs (c :: acc)
    else if acc.isEmpty then wordRunsAux cs []
    else String.mk acc.reverse :: wordRunsAux cs []

def wordRuns (s : String) : List String :=
  wordRunsAux s.toList []

/-- Characters kept by sanitizeTaskId: the regex class of lowercase
letters and digits. -/
def isSlugKeep (c : Char) : Bool :=
  ('a' ≤ c && c ≤ 'z') || c.isDigit

/-- Collapse adjacent dashes: together with the character map below this
realises replacing every maximal run of excluded characters by a single
dash, exactly as the global regex replacement does. -/
def collapseDashes : List Char → List Char
  | [] => []
  | [c] => [c]
  | c :: d :: rest =>
    if c = '-' && d = '-' then collapseDashes (d :: rest)
    else c :: collapseDashes (d :: rest)

def dropDashes (l : List Char) : List Char :=
  l.dropWhile (fun c => c = '-')

/-- sanitizeTaskId from autonomous-v3.ts: trim, lowercase, replace runs
of characters outside lowercase-alphanumeric by a dash, strip leading
and trailing dashes; empty results become task-(index+1); results not
already beginning with the task dash marker get it prepended. -/
def sanitizeTaskId (raw : String) (index : Nat) : String :=
  let trimmed := strToLower (jsTrim raw)
  let mapped := trimmed.toList.map (fun c => if isSlugKeep c then c else '-')
  let normalized := String.mk ((dropDashes ((dropDashes ((collapseDashes mapped).reverse)).reverse)))
  if normalized = "" then "task-" ++ toString (index + 1)
  else if strStartsWith normalized "task-" then normalized
  else "task-" ++ normalized

/-- clampStringArray from autonomous-v3.ts: non-arrays become empty;
string entries are trimmed, non-strings become the empty string, falsy
(empty) entries are filtered out, and the result is truncated. -/
def clampStringArray (values : Option Json) (maxItems : Nat) : List String :=
  match values with
  | some (.arr xs) =>
    ((xs.map (fun v => match v with | .str s => jsTrim s | _ => "")).filter
      (fun s => s ≠ "")).take maxItems
  | _ => []

def NO_DEPENDENCY_SENTINELS : List String :=
  ["none", "no", "n/a", "na", "null", "nil", "false", "not_applicable",
   "not-applicable", "no_dependency", "no-dependency", "no missing dependency"]

/-- normalizeDependencyName from autonomous-v3.ts. -/
def normalizeDependencyName (name : Option Json) : Option String :=
  match name with
  | some (.str s) =>
    let trimmed := jsTrim s
    if trimmed = "" then none
    else if strToLower trimmed ∈ NO_DEPENDENCY_SENTINELS then none
    else some trimmed
  | _ => none

inductive Risk where
  | low | medium | high
deriving DecidableEq

inductive SideEffectClass where
  | read | write_local | external_mutation
deriving DecidableEq

structure PlannerTask where
  id : String
  title : String
  depends_on : List String
  acceptance_criteria : List String
  risk : Risk
  side_effect : SideEffectClass
deriving DecidableEq

structure PlannerOutput where
  summary : String
  tasks : List PlannerTask
deriving DecidableEq

/-- Runtime configuration fields used by the engine.  The declaring
module (workspace.ts) is not part of the sources at hand; the field set
is taken from the uses in autonomous-v3.ts and from the data-model
section of the specification.  Claims quantify over the budget values,
so the default values of the missing loader are never needed. -/
structure AutonomousRuntimeConfig where
  max_tasks_per_plan : Nat
  retry_budget_per_node : Nat
  replan_budget_per_run : Nat
  allow_external_mutation : Bool
deriving DecidableEq

def FALLBACK_TASK_ID : String := "task-1"

/-- The single fallback task both fallback branches of
validatePlannerOutput construct. -/
def fallbackTask (goal : String) : PlannerTask :=
  { id := FALLBACK_TASK_ID
    title := goal
    depends_on := []
    acceptance_criteria := ["Provide a concrete answer to the user request."]
    risk := .low
    side_effect := .read }

/-- Fallback plan returned when the parsed value is absent or not an
object. -/
def fallbackInvalidPlan (goal : String) : PlannerOutput :=
  { summary := "Fallback single-task plan due to invalid planner output."
    tasks := [fallbackTask goal] }

/-- Fallback plan returned when no valid task survives validation. -/
def fallbackNoValidPlan (goal : String) : PlannerOutput :=
  { summary := "Fallback single-task plan because planner returned no valid tasks."
    tasks := [fallbackTask goal] }

/-- A task retained by the first validation pass, with its raw
dependency list still unresolved. -/
structure DraftTask where
  id : String
  title : String
  raw_depends_on : List String
  acceptance_criteria : List String
  risk : Risk
  side_effect : SideEffectClass
deriving DecidableEq

/-- State of the first validation pass: the set of sanitized ids seen so
far, the raw-to-sanitized id map (most recent binding first, mirroring
Map.set), and the retained draft tasks in order. -/
structure ScanState where
  uniqueIds : List String
  idMap : List (String × String)
  drafts : List DraftTask
deriving DecidableEq

def mapGet (m : List (String × String)) (k : String) : Option String :=
  (m.find? (fun p => p.1 = k)).map (fun p => p.2)

/-- The raw id of the element at a given index, as computed on line 172
of autonomous-v3.ts: a trimmed string id, or task-(index+1). -/
def rawIdAt (i : Nat) (t : Json) : String :=
  match t.getField "id" with
  | some (.str s) => jsTrim s
  | _ => "task-" ++ toString (i + 1)

/-- The sanitized id the validator associates with the raw element at a
given index. -/
def sidAt (i : Nat) (t : Json) : String :=
  sanitizeTaskId (rawIdAt i t) i

/-- The title the validator reads off a raw element (empty when the
title field is not a string). -/
def titleAt (t : Json) : String :=
  match t.getField "title" with
  | some (.str s) => jsTrim s
  | _ => ""

def riskAt (t : Json) : Risk :=
  match t.getField "risk" with
  | some (.str "high") => .high
  | some (.str "medium") => .medium
  | some (.str "low") => .low
  | _ => .low

def sideEffectAt (t : Json) : SideEffectClass :=
  match t.getField "side_effect" with
  | some (.str "read") => .read
  | some (.str "write_local") => .write_local
  | some (.str "external_mutation") => .external_mutation
  | _ => .read

/-- One iteration of the validation loop over raw tasks.  Note that the
id is registered in uniqueIds and idMap before the title check, exactly
as in the source: a task dropped for an empty title still contributes
its id to the resolution map. -/
def scanStep (i : Nat) (t : Json) (st : ScanState) : ScanState :=
  let rawId := rawIdAt i t
  let id := sidAt i t
  if id ∈ st.uniqueIds then st
  else
    let st1 : ScanState :=
      { uniqueIds := id :: st.uniqueIds
        idMap := (id, id) :: (rawId, id) :: st.idMap
        drafts := st.drafts }
    let title := titleAt t
    if title = "" then st1
    else
      { st1 with
          drafts := st1.drafts ++
            [{ id := id
               title := title
               raw_depends_on := clampStringArray (t.getField "depends_on") 6
               acceptance_criteria := clampStringArray (t.getField "acceptance_criteria") 6
               risk := riskAt t
               side_effect := sideEffectAt t }] }

/-- The validation loop.  A null array element makes the JavaScript
source throw a TypeError when reading its id property; this is the
.error case. -/
def plannerScan (i : Nat) (l : List Json) (st : ScanState) : Except Unit ScanState :=
  match l with
  | [] => .ok st
  | t :: rest =>
    if t.isNull then .error ()
    else plannerScan (i + 1) rest (scanStep i t st)

/-- Keep the first occurrence of every element, as the indexOf-based
filter in the source does. -/
def dedupFirstGo (seen : List String) : List String → List String
  | [] => []
  | x :: xs => if x ∈ seen then dedupFirstGo seen xs else x :: dedupFirstGo (x :: seen) xs

def dedupFirst (l : List String) : List String :=
  dedupFirstGo [] l

/-- Dependency resolution for one retained task: look each raw entry up
directly, then under sanitization; drop unresolved entries, duplicates
(first occurrence wins) and self references. -/
def resolveDeps (idMap : List (String × String)) (task : DraftTask) : List String :=
  (dedupFirst ((task.raw_depends_on.map (fun dep =>
      match mapGet idMap dep with
      | some v => some v
      | none => mapGet idMap (sanitizeTaskId dep 0))).filterMap id)).filter
    (fun d => d ≠ task.id)

def resolveTask (idMap : List (String × String)) (task : DraftTask) : PlannerTask :=
  { id := task.id
    title := task.title
    depends_on := resolveDeps idMap task
    acceptance_criteria := task.acceptance_criteria
    risk := task.risk
    side_effect := task.side_effect }

/-- The summary field: a non-empty string survives, anything else is
replaced by the default (the source uses JavaScript truthiness on the
raw field; a non-string truthy summary would flow through untyped there,
a corner no claim touches). -/
def summaryOf (j : Json) : String :=
  match j.getField "summary" with
  | some (.str s) => if s = "" then "Task plan generated." else s
  | _ => "Task plan generated."

/-- The tasks array of the raw plan (non-arrays become empty). -/
def rawTasksOf (j : Json) : List Json :=
  match j.getField "tasks" with
  | some (.arr xs) => xs
  | _ => []

/-- The guard shared by all three validators: the parse failed, or the
parsed value is falsy or not of object type.  Arrays pass the guard in
JavaScript (their type tag is object and they are truthy). -/
def parsedGuardFails : Option Json → Bool
  | none => true
  | some (.obj _) => false
  | some (.arr _) => false
  | some _ => true

/-- validatePlannerOutput from autonomous-v3.ts.  The Except layer
models the uncaught TypeError on a null tasks-array element; every other
input produces a plan.  Truncation to max_tasks_per_plan happens after
dependency resolution and after the zero-tasks fallback check, exactly
as in the source. -/
def validatePlannerOutput (raw : Option Json) (goal : String)
    (config : AutonomousRuntimeConfig) : Except Unit PlannerOutput :=
  match raw with
  | none => .ok (fallbackInvalidPlan goal)
  | some j =>
    if parsedGuardFails (some j) then .ok (fallbackInvalidPlan goal)
    else
      match plannerScan 0 (rawTasksOf j) ⟨[], [], []⟩ with
      | .error e => .error e
      | .ok st =>
        let tasks := st.drafts.map (resolveTask st.idMap)
        if tasks = [] then .ok (fallbackNoValidPlan goal)
        else .ok { summary := summaryOf j, tasks := tasks.take config.max_tasks_per_plan }

inductive ExecStatus where
  | done | blocked | failed
deriving DecidableEq

structure ExecutorDependencyHint where
  name : String
  install_command : Option String
  requires_root : Bool
  evidence : Option String
deriving DecidableEq

structure ExecutorOutput where
  task_id : String
  status : ExecStatus
  result_summary : String
  artifacts : List String
  needs_replan : Bool
  missing_dependency : Option ExecutorDependencyHint
deriving DecidableEq

/-- The dependency hint extracted from an object-typed
missing_dependency field with a name that survives
normalizeDependencyName. -/
def hintOfJson (m : Json) : Option ExecutorDependencyHint :=
  match normalizeDependencyName (m.getField "name") with
  | none => none
  | some nm =>
    some
      { name := nm
        install_command :=
          match m.getField "install_command" with
          | some (.str s) => some (jsTrim s)
          | _ => none
        requires_root := jsTruthy (m.getField "requires_root")
        evidence :=
          match m.getField "evidence" with
          | some (.str s) => some (jsTrim s)
          | _ => none }

/-- validateExecutorOutput from autonomous-v3.ts.  The task_id fallback
uses JavaScript truthiness on the raw field; a non-string truthy id
would flow through untyped there, a corner no claim touches, so only a
non-empty string id is kept. -/
def validateExecutorOutput (raw : Option Json) (taskId : String) : ExecutorOutput :=
  if parsedGuardFails raw then
    { task_id := taskId
      status := .failed
      result_summary := "Executor response was invalid JSON."
      artifacts := []
      needs_replan := false
      missing_dependency := none }
  else
    let j := raw.getD Json.null
    { task_id :=
        match j.getField "task_id" with
        | some (.str s) => if s = "" then taskId else s
        | _ => taskId
      status :=
        match j.getField "status" with
        | some (.str "done") => .done
        | some (.str "blocked") => .blocked
        | some (.str "failed") => .failed
        | _ => .failed
      result_summary :=
        match j.getField "result_summary" with
        | some (.str s) =>
          if jsTrim s = "" then "Executor finished without summary." else jsTrim s
        | _ => "Executor finished without summary."
      artifacts := clampStringArray (j.getField "artifacts") 8
      needs_replan := jsTruthy (j.getField "needs_replan")
      missing_dependency :=
        match j.getField "missing_dependency" with
        | some (.obj kvs) => hintOfJson (.obj kvs)
        | some (.arr xs) => hintOfJson (.arr xs)
        | _ => none }

inductive Verdict where
  | pass | retry | replan | block
deriving DecidableEq

structure CriticOutput where
  task_id : String
  verdict : Verdict
  issues : List String
  suggested_fix : String
deriving DecidableEq

/-- validateCriticOutput from autonomous-v3.ts. -/
def validateCriticOutput (raw : Option Json) (taskId : String) : CriticOutput :=
  if parsedGuardFails raw then
    { task_id := taskId
      verdict := .retry
      issues := ["Critic response was invalid JSON."]
      suggested_fix := "Return strict JSON with a verdict." }
  else
    let j := raw.getD Json.null
    { task_id :=
        match j.getField "task_id" with
        | some (.str s) => if s = "" then taskId else s
        | _ => taskId
      verdict :=
        match j.getField "verdict" with
        | some (.str "pass") => .pass
        | some (.str "retry") => .retry
        | some (.str "replan") => .replan
        | some (.str "block") => .block
        | _ => .retry
      issues := clampStringArray (j.getField "issues") 8
      suggested_fix :=
        match j.getField "suggested_fix" with
        | some (.str s) => jsTrim s
        | _ => "" }

inductive NodeStatus where
  | pending | in_progress | done | blocked | failed
deriving DecidableEq

inductive GraphStatus where
  | planning | executing | criticizing | replanning | blocked | done
deriving DecidableEq

/-- Task node state, named as the type imported from workspace.ts; the
field layout follows its uses in autonomous-v3.ts and the data-model
section of the specification.  Timestamps do not exist on nodes. -/
structure ActiveTaskNodeState where
  id : String
  title : String
  status : NodeStatus
  depends_on : List String
  acceptance_criteria : List String
  retries : Nat
  risk : Risk
  side_effect : SideEffectClass
  result_summary : Option String
  critic_issues : Option (List String)
deriving DecidableEq

/-- A fresh pending node built from a validated planner task, as in the
node construction after plan creation and inside the replan merge. -/
def initNode (t : PlannerTask) : ActiveTaskNodeState :=
  { id := t.id
    title := t.title
    status := .pending
    depends_on := t.depends_on
    acceptance_criteria := t.acceptance_criteria
    retries := 0
    risk := t.risk
    side_effect := t.side_effect
    result_summary := none
    critic_issues := none }

/-- The workspace paths the escalator mentions in its user-facing
strings. -/
structure WorkspacePaths where
  installRequirementsFile : String
  workspaceDir : String
deriving DecidableEq

/-- Keywords of the privileged-package-manager regex.  The pattern also
lists the apt-get form; a command containing apt-get as a word always
contains apt as a word-boundary-delimited token (the dash is not a word
character), so token membership in this list is exactly regex match. -/
def ROOT_INSTALL_KEYWORDS : List String :=
  ["sudo", "apt", "yum", "dnf", "pacman", "apk", "brew", "choco", "winget"]

/-- includesRootLevelInstall from autonomous-v3.ts: the case-insensitive
word-boundary regex over the keyword alternation holds exactly when some
maximal word-character run of the command equals one of the keywords. -/
def includesRootLevelInstall (command : String) : Bool :=
  (wordRuns command).any (fun w => strToLower w ∈ ROOT_INSTALL_KEYWORDS)

inductive DependencyInstallStatus where
  | installed | failed | escalated
deriving DecidableEq

structure DependencyInstallResult where
  status : DependencyInstallStatus
  details : String
deriving DecidableEq

/-- One structured entry of the install-requirements document.  The
opened_at timestamp and the empty resolved_at line are wall-clock
fields with no influence on behaviour and are omitted. -/
structure InstallRequirementEntry where
  name : String
  blocking_task : String
  failure_evidence : String
  snippet : String
deriving DecidableEq

def replaceNewlines (s : String) : String :=
  String.mk (s.toList.map (fun c => if c = '\n' then ' ' else c))

/-- appendInstallRequirement from autonomous-v3.ts, as the structured
entry it appends. -/
def mkInstallRequirement (task : ActiveTaskNodeState)
    (dep : ExecutorDependencyHint) : InstallRequirementEntry :=
  { name := if dep.name = "" then "unknown" else dep.name
    blocking_task := task.id ++ " (" ++ task.title ++ ")"
    failure_evidence :=
      replaceNewlines
        (match dep.evidence with
         | some e => if e = "" then "missing dependency" else e
         | none => "missing dependency")
    snippet :=
      match dep.install_command with
      | some c =>
        if c = "" then "# Suggested\n# Add required OS package to your image.\n"
        else "# Suggested\n# " ++ c ++ "\n"
      | none => "# Suggested\n# Add required OS package to your image.\n" }

/-- Result of the shell invocation; the error case models the spawn or
stream read throwing. -/
structure ShellResult where
  exitCode : Int
  stdout : String
  stderr : String
deriving DecidableEq

/-- attemptUserSpaceInstall from autonomous-v3.ts.  Returns the result
together with the list of entries appended to the install-requirements
document (one entry on escalation, none otherwise). -/
def attemptUserSpaceInstall (paths : WorkspacePaths) (task : ActiveTaskNodeState)
    (dep : ExecutorDependencyHint) (shell : Except String ShellResult) :
    DependencyInstallResult × List InstallRequirementEntry :=
  let command := dep.install_command.getD ""
  let requiresRoot := dep.requires_root || includesRootLevelInstall command
  if command = "" || requiresRoot then
    ({ status := .escalated
       details := "Escalated " ++ dep.name ++ " to " ++ paths.installRequirementsFile },
     [mkInstallRequirement task dep])
  else
    match shell with
    | .error e =>
      ({ status := .failed, details := "Install failed (" ++ dep.name ++ "): " ++ e }, [])
    | .ok r =>
      if r.exitCode = 0 then
        ({ status := .installed
           details := dep.name ++ " installed with command: " ++ command }, [])
      else
        ({ status := .failed
           details := "Install failed (" ++ dep.name ++ "): " ++
             (if r.stderr ≠ "" then r.stderr
              else if r.stdout ≠ "" then r.stdout
              else "exit " ++ toString r.exitCode) }, [])

/-- Engine state.  The replan counter is a local of runAutonomousV3 and
the install-requirements document is an append-only file; both are
carried here so that claims can speak about them.  run_id, goal and the
timestamps never influence a transition and are omitted. -/
structure EngineState where
  nodes : List ActiveTaskNodeState
  status : GraphStatus
  summary : String
  current_task_id : Option String
  replanCount : Nat
  installDoc : List InstallRequirementEntry
deriving DecidableEq

/-- The id map of getNextRunnableTask is built with the Map constructor,
for which a later node with the same id shadows an earlier one. -/
def findById (nodes : List ActiveTaskNodeState) (d : String) :
    Option ActiveTaskNodeState :=
  nodes.reverse.find? (fun n => decide (n.id = d))

def isRunnable (nodes : List ActiveTaskNodeState) (n : ActiveTaskNodeState) : Bool :=
  decide (n.status = .pending) &&
    n.depends_on.all (fun d =>
      match findById nodes d with
      | some m => decide (m.status = .done)
      | none => false)

def getNextRunnableIdxAux (nodes : List ActiveTaskNodeState) :
    List ActiveTaskNodeState → Nat → Option Nat
  | [], _ => none
  | n :: rest, i =>
    if isRunnable nodes n then some i else getNextRunnableIdxAux nodes rest (i + 1)

/-- Position of the first runnable node, scanning in declaration
order. -/
def getNextRunnableIdx (nodes : List ActiveTaskNodeState) : Option Nat :=
  getNextRunnableIdxAux nodes nodes 0

/-- getNextRunnableTask from autonomous-v3.ts. -/
def getNextRunnableTask (nodes : List ActiveTaskNodeState) :
    Option ActiveTaskNodeState :=
  (getNextRunnableIdx nodes).bind (fun i => nodes[i]?)

/-- summarizeGraph from autonomous-v3.ts. -/
def summarizeGraph (graph : EngineState) : String :=
  let done := graph.nodes.filter (fun n => decide (n.status = .done))
  let blocked := graph.nodes.filter (fun n => decide (n.status = .blocked))
  let failed := graph.nodes.filter (fun n => decide (n.status = .failed))
  let completedLines := done.map (fun n =>
    "- " ++ n.title ++ ": " ++
      (match n.result_summary with
       | some r => if r = "" then "completed" else r
       | none => "completed"))
  let blockedLines := blocked.map (fun n =>
    "- " ++ n.title ++ ": " ++
      (match n.critic_issues with
       | some (x :: _) => if x = "" then "blocked" else x
       | _ => "blocked"))
  let failedLines := failed.map (fun n =>
    "- " ++ n.title ++ ": " ++
      (match n.critic_issues with
       | some (x :: _) => if x = "" then "failed" else x
       | _ => "failed"))
  let parts : List String :=
    (if completedLines ≠ [] then "Completed:" :: completedLines else []) ++
    (if blockedLines ≠ [] then "" :: "Blocked:" :: blockedLines else []) ++
    (if failedLines ≠ [] then "" :: "Failed:" :: failedLines else [])
  if parts = [] then "No executable tasks were completed."
  else jsTrim (String.intercalate "\n" parts)

/-- mergeReplanIntoGraph from autonomous-v3.ts: keep the nodes already
done, append the new plan tasks whose id is not among them, restarted as
pending with zero retries. -/
def mergeReplanIntoGraph (graph : EngineState) (plan : PlannerOutput) :
    List ActiveTaskNodeState :=
  let completed := graph.nodes.filter (fun n => decide (n.status = .done))
  let completedIds := completed.map (fun n => n.id)
  completed ++ (plan.tasks.filter (fun t => decide (t.id ∉ completedIds))).map initNode

/-- External inputs consumed by one loop iteration: the raw executor
response, the shell outcome of a possible install attempt, the raw
critic response, and the raw replanner response.  Unused components of
an iteration are simply ignored. -/
structure IterOracle where
  executorRaw : Option Json
  shell : Except String ShellResult
  criticRaw : Option Json
  replanRaw : Option Json

inductive StepOut where
  | halt (s : EngineState)
  | cont (s : EngineState)

def StepOut.state : StepOut → EngineState
  | .halt s => s
  | .cont s => s

/-- The critic phase and verdict application (lines 808 to 890 of
autonomous-v3.ts), entered when no dependency branch short-circuited the
iteration.  In the replan branch the merge replaces graph.nodes with
fresh objects before line 867 runs; that line mutates the old node
object, which the merged list no longer references, so the functional
translation of the mutation is the identity on the graph. -/
def applyVerdict (config : AutonomousRuntimeConfig) (goal : String)
    (s1 : EngineState) (idx : Nat) (tIn : ActiveTaskNodeState)
    (execution : ExecutorOutput) (criticRaw replanRaw : Option Json) :
    Except Unit StepOut :=
  let s2 : EngineState := { s1 with status := .criticizing }
  let critic := validateCriticOutput criticRaw tIn.id
  if critic.verdict = .pass ∧ execution.status = .done then
    let tNew := { tIn with status := NodeStatus.done,
                           result_summary := some execution.result_summary,
                           critic_issues := some [] }
    .ok (.cont { s2 with nodes := s2.nodes.set idx tNew })
  else if critic.verdict = .retry then
    if tIn.retries < config.retry_budget_per_node then
      let tNew := { tIn with critic_issues := some critic.issues,
                             retries := tIn.retries + 1,
                             status := NodeStatus.pending }
      .ok (.cont { s2 with nodes := s2.nodes.set idx tNew })
    else
      let tNew := { tIn with critic_issues := some critic.issues,
                             status := NodeStatus.failed }
      .ok (.cont { s2 with nodes := s2.nodes.set idx tNew })
  else if critic.verdict = .replan then
    if s2.replanCount < config.replan_budget_per_run then
      match validatePlannerOutput replanRaw goal config with
      | .error e => .error e
      | .ok plan =>
        .ok (.cont { s2 with
          status := .replanning,
          replanCount := s2.replanCount + 1,
          nodes := mergeReplanIntoGraph s2 plan,
          summary := plan.summary })
    else
      let tNew := { tIn with status := NodeStatus.blocked,
                             critic_issues := some
                               (if critic.issues = [] then ["Replan budget exhausted."]
                                else critic.issues) }
      .ok (.cont { s2 with nodes := s2.nodes.set idx tNew })
  else
    let tNew := { tIn with status := NodeStatus.blocked,
                           critic_issues := some critic.issues }
    .ok (.cont { s2 with nodes := s2.nodes.set idx tNew })

/-- Terminal status computed when no node is runnable: blocked while
pending or in-progress work remains unreachable, blocked when some node
ended blocked or failed, done otherwise. -/
def terminalStatus (nodes : List ActiveTaskNodeState) : GraphStatus :=
  if nodes.any (fun n => decide (n.status = .pending) || decide (n.status = .in_progress))
  then GraphStatus.blocked
  else if nodes.any (fun n => decide (n.status = .blocked) || decide (n.status = .failed))
  then GraphStatus.blocked
  else GraphStatus.done

/-- The selected node marked in progress. -/
def tInOf (t0 : ActiveTaskNodeState) : ActiveTaskNodeState :=
  { t0 with status := NodeStatus.in_progress }

/-- Graph state right after dispatching the selected node. -/
def dispatchState (s : EngineState) (idx : Nat) (t0 : ActiveTaskNodeState) : EngineState :=
  { s with status := .executing,
           current_task_id := some t0.id,
           nodes := s.nodes.set idx (tInOf t0) }

/-- One iteration of the engine loop of runAutonomousV3 (lines 724 to
891): select the next runnable node or compute the terminal status;
dispatch the executor; take the dependency branch when a missing
dependency is reported; otherwise run the critic and apply its
verdict. -/
def loopStep (paths : WorkspacePaths) (config : AutonomousRuntimeConfig)
    (goal : String) (s : EngineState) (o : IterOracle) : Except Unit StepOut :=
  match getNextRunnableIdx s.nodes with
  | none =>
    .ok (.halt { s with status := terminalStatus s.nodes, current_task_id := none })
  | some idx =>
    match s.nodes[idx]? with
    | none => .ok (.halt s)
    | some t0 =>
      let tIn := tInOf t0
      let s1 : EngineState := dispatchState s idx t0
      let execution := validateExecutorOutput o.executorRaw tIn.id
      match execution.missing_dependency with
      | some dep =>
        if dep.name ≠ "" then
          let ir := attemptUserSpaceInstall paths tIn dep o.shell
          let s2 : EngineState := { s1 with installDoc := s1.installDoc ++ ir.2 }
          match ir.1.status with
          | .installed =>
            let tNew := { tIn with retries := tIn.retries + 1,
                                   status := NodeStatus.pending,
                                   critic_issues := some [] }
            .ok (.cont { s2 with nodes := s2.nodes.set idx tNew })
          | .escalated =>
            let tNew := { tIn with status := NodeStatus.blocked,
                                   critic_issues := some [ir.1.details] }
            .ok (.cont { s2 with nodes := s2.nodes.set idx tNew })
          | .failed =>
            applyVerdict config goal s2 idx tIn execution o.criticRaw o.replanRaw
        else
          applyVerdict config goal s1 idx tIn execution o.criticRaw o.replanRaw
      | none =>
        applyVerdict config goal s1 idx tIn execution o.criticRaw o.replanRaw

/-- The bounded engine loop: at most fuel iterations, stopping early
when an iteration breaks with a terminal status.  The first argument of
the oracle is the iteration index. -/
def runLoopAux (paths : WorkspacePaths) (config : AutonomousRuntimeConfig)
    (goal : String) (oracles : Nat → IterOracle) :
    Nat → Nat → EngineState → Except Unit EngineState
  | _, 0, s => .ok s
  | i, fuel + 1, s =>
    match loopStep paths config goal s (oracles i) with
    | .error e => .error e
    | .ok (.halt s1) => .ok s1
    | .ok (.cont s1) => runLoopAux paths config goal oracles (i + 1) fuel s1

structure AutonomousRunResult where
  response : String
  graph : EngineState

/-- runAutonomousV3 from autonomous-v3.ts: validate the planner output,
populate the pending nodes, run the bounded loop, and force a blocked
status when the iteration budget ran out before a terminal state. -/
def runAutonomousV3 (paths : WorkspacePaths) (config : AutonomousRuntimeConfig)
    (goal : String) (plannerRaw : Option Json) (oracles : Nat → IterOracle) :
    Except Unit AutonomousRunResult :=
  match validatePlannerOutput plannerRaw goal config with
  | .error e => .error e
  | .ok planner =>
    let s0 : EngineState :=
      { nodes := planner.tasks.map initNode
        status := .executing
        summary := planner.summary
        current_task_id := none
        replanCount := 0
        installDoc := [] }
    let maxIterations :=
      Nat.max 4 (s0.nodes.length *
        (config.retry_budget_per_node + config.replan_budget_per_run + 2))
    match runLoopAux paths config goal oracles 0 maxIterations s0 with
    | .error e => .error e
    | .ok s =>
      let sF := if s.status = .done ∨ s.status = .blocked then s
        else { s with status := .blocked, current_task_id := none }
      .ok { response := summarizeGraph sF, graph := sF }

inductive BgStatus where
  | pending | running | done | failed
deriving DecidableEq

/-- Background task record from relay.ts; timestamps are omitted as
before. -/
structure BackgroundTask where
  id : String
  status : BgStatus
  request_text : String
  chat_id : String
  attempts : Nat
  max_attempts : Nat
  last_error : Option String
  route_reason : String
deriving DecidableEq

/-- claimNextBackgroundTask from relay.ts: pick the first pending or
failed task with attempts below max(1, max_attempts), mark it running
and charge one attempt.  Returns the claimed task (after mutation) and
the updated queue. -/
def claimNextBackgroundTask (queue : List BackgroundTask) :
    Option (BackgroundTask × List BackgroundTask) :=
  match queue.findIdx? (fun t =>
      (decide (t.status = .pending) || decide (t.status = .failed)) &&
      decide (t.attempts < Nat.max 1 t.max_attempts)) with
  | none => none
  | some i =>
    match queue[i]? with
    | none => none
    | some t =>
      let claimed := { t with status := BgStatus.running, attempts := t.attempts + 1 }
      some (claimed, queue.set i claimed)

/-- updateBackgroundTask from relay.ts. -/
def updateBackgroundTask (queue : List BackgroundTask) (taskId : String)
    (update : BackgroundTask → BackgroundTask) : List BackgroundTask :=
  match queue.findIdx? (fun t => decide (t.id = taskId)) with
  | none => queue
  | some i =>
    match queue[i]? with
    | none => queue
    | some t => queue.set i (update t)

def buildBackgroundCompletionMessage (task : BackgroundTask) (resultText : String) : String :=
  "Background task complete (" ++ task.id ++ "):\n\n" ++
    (if jsTrim resultText = "" then "Completed." else jsTrim resultText)

def buildBackgroundFailureMessage (task : BackgroundTask) (errorText : String) : String :=
  "Background task failed (" ++ task.id ++ ").\n\n" ++
    (if jsTrim errorText = "" then "Unknown failure." else jsTrim errorText)

/-- Messages the worker delivers to the requesting chat. -/
inductive BgNotification where
  | completion (taskId : String) (message : String)
  | permanentFailure (taskId : String) (message : String)
deriving DecidableEq

def isPermanentFailure : BgNotification → Bool
  | .permanentFailure _ _ => true
  | _ => false

/-- processNextBackgroundTask from relay.ts, for one worker tick.  The
engine outcome (the run through runAutonomousV3 plus formatting,
succeeding with the summary text or throwing) is the oracle argument.
The in-process backgroundWorkerRunning flag only drops overlapping ticks
within one process; ticks here are already serialized.  Both arms of the
willRetry conditional in the source store the failed status. -/
def processNextBackgroundTask (queue : List BackgroundTask)
    (engine : Except String String) : List BackgroundTask × List BgNotification :=
  match claimNextBackgroundTask queue with
  | none => (queue, [])
  | some (task, q1) =>
    match engine with
    | .ok summaryText =>
      (updateBackgroundTask q1 task.id (fun c =>
        { c with status := BgStatus.done, last_error := none }),
       [.completion task.id (buildBackgroundCompletionMessage task summaryText)])
    | .error message =>
      let willRetry := task.attempts < task.max_attempts
      (updateBackgroundTask q1 task.id (fun c =>
        { c with status := BgStatus.failed, last_error := some message }),
       if willRetry then []
       else [.permanentFailure task.id (buildBackgroundFailureMessage task message)])

/-- The install decision the dependency branch of an iteration would
take: none when no (named) missing dependency is reported, otherwise the
status of the attempted user-space install.  Mirrors lines 775 to 806 of
autonomous-v3.ts. -/
def installAction (paths : WorkspacePaths) (s : EngineState) (o : IterOracle) :
    Option DependencyInstallStatus :=
  match getNextRunnableIdx s.nodes with
  | none => none
  | some idx =>
    match s.nodes[idx]? with
    | none => none
    | some t0 =>
      let tIn := { t0 with status := NodeStatus.in_progress }
      match (validateExecutorOutput o.executorRaw tIn.id).missing_dependency with
      | some dep =>
        if dep.name ≠ "" then some (attemptUserSpaceInstall paths tIn dep o.shell).1.status
        else none
      | none => none

/-! ## Concrete inputs used by counterexamples and witnesses -/

def cfgTen : AutonomousRuntimeConfig :=
  { max_tasks_per_plan := 10, retry_budget_per_node := 1,
    replan_budget_per_run := 1, allow_external_mutation := false }

def cfgRetryZero : AutonomousRuntimeConfig :=
  { max_tasks_per_plan := 10, retry_budget_per_node := 0,
    replan_budget_per_run := 1, allow_external_mutation := false }

def pathsWS : WorkspacePaths :=
  { installRequirementsFile := "INSTALL_REQUIREMENTS.md", workspaceDir := "/workspace" }

/-- A planner response whose second task has an empty title (so it is
dropped but its id stays in the resolution map) and whose first and
third tasks depend on each other. -/
def c3rawJson : Json := .obj [("tasks", .arr
  [ .obj [("id", .str "task-1"), ("title", .str "A"),
          ("depends_on", .arr [.str "task-2", .str "task-3"])],
    .obj [("id", .str "task-2"), ("title", .str "")],
    .obj [("id", .str "task-3"), ("title", .str "C"),
          ("depends_on", .arr [.str "task-1"])] ])]

/-- The plan the validator produces for c3rawJson. -/
def c3plan : PlannerOutput :=
  { summary := "Task plan generated."
    tasks :=
      [ { id := "task-1", title := "A", depends_on := ["task-2", "task-3"],
          acceptance_criteria := [], risk := .low, side_effect := .read },
        { id := "task-3", title := "C", depends_on := ["task-1"],
          acceptance_criteria := [], risk := .low, side_effect := .read } ] }

/-- A planner response that parses to an object and would retain zero
tasks, of the kind the fallback contract covers. -/
def c7zeroJson : Json := .obj [("tasks", .arr [.obj [("id", .str "task-9")]])]

/-- A planner response whose tasks array contains a JSON null: reading
the id property of that element throws in the source. -/
def c7crashJson : Json := .obj [("tasks", .arr [Json.null])]

/-- A planner response with two tasks whose ids coincide after
slugification. -/
def c9rawJson : Json := .obj [("tasks", .arr
  [ .obj [("id", .str "Task A"), ("title", .str "first")],
    .obj [("id", .str "task-a"), ("title", .str "second")] ])]

def mkSimpleTask (tid title : String) (deps : List String) : PlannerTask :=
  { id := tid, title := title, depends_on := deps,
    acceptance_criteria := [], risk := .low, side_effect := .read }

/-- A raw executor response reporting success. -/
def execDoneJson (tid : String) : Json :=
  .obj [("task_id", .str tid), ("status", .str "done"),
        ("result_summary", .str "ok"), ("artifacts", .arr [])]

/-- A raw critic response carrying only a verdict. -/
def criticJson (v : String) : Json := .obj [("verdict", .str v)]

/-- Shell oracle for iterations that never reach the shell. -/
def noShell : Except String ShellResult := .error "unused"

/-- C4 scenario: a single pending node. -/
def c4state : EngineState :=
  { nodes := [initNode (mkSimpleTask "task-1" "A" [])], status := .executing,
    summary := "", current_task_id := none, replanCount := 0, installDoc := [] }

/-- C4 scenario: executor succeeds, critic requests a replan, and the
replanner returns a plan consisting of a fresh task-2. -/
def c4oracle : IterOracle :=
  { executorRaw := some (execDoneJson "task-1"), shell := noShell,
    criticRaw := some (criticJson "replan"),
    replanRaw := some (.obj [("tasks", .arr
      [.obj [("id", .str "task-2"), ("title", .str "B")]])]) }

/-- C2 scenario: an executor response reporting a missing dependency
with a user-space install command. -/
def c2ExecMissing : Json :=
  .obj [("task_id", .str "task-1"), ("status", .str "failed"),
        ("result_summary", .str "missing"),
        ("missing_dependency", .obj [("name", .str "libfoo"),
          ("install_command", .str "pip install libfoo")])]

def c2state : EngineState :=
  { nodes := [initNode (mkSimpleTask "task-1" "A" []),
              initNode (mkSimpleTask "task-2" "B" [])],
    status := .executing, summary := "", current_task_id := none,
    replanCount := 0, installDoc := [] }

/-- C2 oracle: iteration 0 installs a missing dependency for task-1;
iteration 1 gets a retry verdict for task-1; iteration 2 gets a replan
verdict for task-2 whose new plan reuses the id task-1. -/
def c2oracles : Nat → IterOracle
  | 0 => { executorRaw := some c2ExecMissing,
           shell := .ok { exitCode := 0, stdout := "", stderr := "" },
           criticRaw := none, replanRaw := none }
  | 1 => { executorRaw := some (execDoneJson "task-1"), shell := noShell,
           criticRaw := some (criticJson "retry"), replanRaw := none }
  | _ => { executorRaw := some (execDoneJson "task-2"), shell := noShell,
           criticRaw := some (criticJson "replan"),
           replanRaw := some (.obj [("tasks", .arr
             [.obj [("id", .str "task-1"), ("title", .str "A again")]])]) }

/-- C6 scenario: planner response for the 3-node chain A, B, C. -/
def c6plannerJson : Json := .obj [("summary", .str "plan"), ("tasks", .arr
  [ .obj [("id", .str "task-a"), ("title", .str "A")],
    .obj [("id", .str "task-b"), ("title", .str "B"),
          ("depends_on", .arr [.str "task-a"])],
    .obj [("id", .str "task-c"), ("title", .str "C"),
          ("depends_on", .arr [.str "task-b"])] ])]

/-- C6 scenario: executor response for task C reporting the ffmpeg
dependency with requires_root set. -/
def c6execC : Json :=
  .obj [("task_id", .str "task-c"), ("status", .str "failed"),
        ("result_summary", .str "ffmpeg missing"),
        ("missing_dependency", .obj [("name", .str "ffmpeg"),
          ("install_command", .str "sudo apt install ffmpeg"),
          ("requires_root", .bool true)])]

def c6oracles : Nat → IterOracle
  | 0 => { executorRaw := some (execDoneJson "task-a"), shell := noShell,
           criticRaw := some (criticJson "pass"), replanRaw := none }
  | 1 => { executorRaw := some (execDoneJson "task-b"), shell := noShell,
           criticRaw := some (criticJson "pass"), replanRaw := none }
  | _ => { executorRaw := some c6execC, shell := noShell,
           criticRaw := none, replanRaw := none }

/-- A background task as enqueueBackgroundTask creates it, with the
default budget of two attempts. -/
def mkBgTask (req chat route : String) : BackgroundTask :=
  { id := "bg_1", status := .pending, request_text := req, chat_id := chat,
    attempts := 0, max_attempts := 2, last_error := none, route_reason := route }

/-- The bg_1 task after its n-th attempt has failed with error e. -/
def bgFailedN (req chat route e : String) (n : Nat) : BackgroundTask :=
  { mkBgTask req chat route with
      status := BgStatus.failed, attempts := n, last_error := some e }

/-- The bg_1 task as claimed for attempt n, carrying the prior error. -/
def bgRunningN (req chat route : String) (priorErr : Option String) (n : Nat) : BackgroundTask :=
  { mkBgTask req chat route with
      status := BgStatus.running, attempts := n, last_error := priorErr }

/-- The bg_1 task after a successful first attempt. -/
def bgDone1 (req chat route : String) : BackgroundTask :=
  { mkBgTask req chat route with
      status := BgStatus.done, attempts := 1, last_error := none }

/-- C10 scenario: a pending node whose only dependency id matches no
node of the graph. -/
def c10state : EngineState :=
  { nodes := [initNode (mkSimpleTask "task-1" "A" ["task-9"])],
    status := .executing, summary := "", current_task_id := none,
    replanCount := 0, installDoc := [] }

def idleOracle : IterOracle :=
  { executorRaw := none, shell := noShell, criticRaw := none, replanRaw := none }

def idleOracles : Nat → IterOracle := fun _ => idleOracle

/-- Oracle for a straightforward pass iteration on task-1. -/
def c1oracle : IterOracle :=
  { executorRaw := some (execDoneJson "task-1"), shell := noShell,
    criticRaw := some (criticJson "pass"), replanRaw := none }

/-- A state whose replan budget (under cfgTen) is already exhausted. -/
def c5state : EngineState :=
  { nodes := [initNode (mkSimpleTask "task-1" "A" [])], status := .executing,
    summary := "", current_task_id := none, replanCount := 1, installDoc := [] }

/-- State for the C6 escalation witness: one pending node. -/
def c6state : EngineState :=
  { nodes := [initNode (mkSimpleTask "task-c" "C" [])], status := .executing,
    summary := "", current_task_id := none, replanCount := 0, installDoc := [] }

/-- Oracle reporting the root-required ffmpeg dependency. -/
def c6oracleEsc : IterOracle :=
  { executorRaw := some c6execC, shell := noShell, criticRaw := none, replanRaw := none }

/-- Engine state after one C2 iteration: the successful dependency
install pushed the retries of task-1 past the zero budget. -/
def c2afterInstall : EngineState :=
  { nodes := [{ id := "task-1", title := "A", status := .pending, depends_on := [],
                acceptance_criteria := [], retries := 1, risk := .low,
                side_effect := .read, result_summary := none, critic_issues := some [] },
              initNode (mkSimpleTask "task-2" "B" [])],
    status := .executing, summary := "", current_task_id := some "task-1",
    replanCount := 0, installDoc := [] }

/-- Engine state after two C2 iterations: the retry verdict found the
budget consumed and failed task-1. -/
def c2afterRetry : EngineState :=
  { nodes := [{ id := "task-1", title := "A", status := .failed, depends_on := [],
                acceptance_criteria := [], retries := 1, risk := .low,
                side_effect := .read, result_summary := none, critic_issues := some [] },
              initNode (mkSimpleTask "task-2" "B" [])],
    status := .criticizing, summary := "", current_task_id := some "task-1",
    replanCount := 0, installDoc := [] }

/-- Engine state after three C2 iterations: the replan merge replaced
the failed task-1 by a fresh pending node with the same id. -/
def c2afterReplan : EngineState :=
  { nodes := [initNode (mkSimpleTask "task-1" "A again" [])],
    status := .replanning, summary := "Task plan generated.",
    current_task_id := some "task-2", replanCount := 1, installDoc := [] }

/-- Engine state after the C4 replan iteration: the merged graph holds
only the new plan task; the triggering node task-1 is gone. -/
def c4afterReplan : EngineState :=
  { nodes := [initNode (mkSimpleTask "task-2" "B" [])],
    status := .replanning, summary := "Task plan generated.",
    current_task_id := some "task-1", replanCount := 1, installDoc := [] }

/-- Final graph of the C6 scenario run. -/
def c6final : EngineState :=
  { nodes := [{ id := "task-a", title := "A", status := .done, depends_on := [],
                acceptance_criteria := [], retries := 0, risk := .low,
                side_effect := .read, result_summary := some "ok",
                critic_issues := some [] },
              { id := "task-b", title := "B", status := .done, depends_on := ["task-a"],
                acceptance_criteria := [], retries := 0, risk := .low,
                side_effect := .read, result_summary := some "ok",
                critic_issues := some [] },
              { id := "task-c", title := "C", status := .blocked, depends_on := ["task-b"],
                acceptance_criteria := [], retries := 0, risk := .low,
                side_effect := .read, result_summary := none,
                critic_issues := some ["Escalated ffmpeg to INSTALL_REQUIREMENTS.md"] }],
    status := .blocked, summary := "plan", current_task_id := none,
    replanCount := 0,
    installDoc := [{ name := "ffmpeg", blocking_task := "task-c (C)",
                     failure_evidence := "missing dependency",
                     snippet := "# Suggested\n# sudo apt install ffmpeg\n" }] }

/-- The validated dependency hint of the C6 scenario. -/
def ffmpegHint : ExecutorDependencyHint :=
  { name := "ffmpeg", install_command := some "sudo apt install ffmpeg",
    requires_root := true, evidence := none }

/-- The plan the validator produces for c9rawJson: only the first task
with the sanitized id task-a survives. -/
def c9plan : PlannerOutput :=
  { summary := "Task plan generated."
    tasks := [mkSimpleTask "task-a" "first" []] }

/-- Engine state after the exhausted-replan iteration of the C5
witness. -/
def c5out : EngineState :=
  { nodes := [{ id := "task-1", title := "A", status := .blocked, depends_on := [],
                acceptance_criteria := [], retries := 0, risk := .low,
                side_effect := .read, result_summary := none,
                critic_issues := some ["Replan budget exhausted."] }],
    status := .criticizing, summary := "", current_task_id := some "task-1",
    replanCount := 1, installDoc := [] }

/-- Node state after the C1 witness iteration. -/
def c1doneNode : ActiveTaskNodeState :=
  { id := "task-1", title := "A", status := .done, depends_on := [],
    acceptance_criteria := [], retries := 0, risk := .low, side_effect := .read,
    result_summary := some "ok", critic_issues := some [] }

/-- Engine state after the C1 witness iteration. -/
def c1outState : EngineState :=
  { nodes := [c1doneNode], status := .criticizing, summary := "",
    current_task_id := some "task-1", replanCount := 0, installDoc := [] }

/-! ## Helper lemmas -/

theorem mem_set_of_ne {α} (l : List α) (i : Nat) (b x : α) (hx : x ∈ l)
    (hne : ∀ h : i < l.length, x ≠ l[i]) : x ∈ l.set i b := by
  obtain ⟨j, hj, rfl⟩ := List.mem_iff_getElem.mp hx
  by_cases hij : i = j
  · subst hij
    exact absurd rfl (hne hj)
  · have hj2 : j < (l.set i b).length := by simpa using hj
    have hg : (l.set i b)[j] = l[j] := List.getElem_set_ne hij hj2
    rw [← hg]
    exact List.getElem_mem hj2

theorem dedupFirstGo_mem (l : List String) :
    ∀ (seen : List String) (x : String), x ∈ dedupFirstGo seen l → x ∈ l ∧ x ∉ seen := by
  induction l with
  | nil => intro seen x hx; simp [dedupFirstGo] at hx
  | cons y ys ih =>
    intro seen x hx
    simp only [dedupFirstGo] at hx
    by_cases hy : y ∈ seen
    · simp only [if_pos hy] at hx
      obtain ⟨h1, h2⟩ := ih seen x hx
      exact ⟨List.mem_cons_of_mem _ h1, h2⟩
    · simp only [if_neg hy] at hx
      rcases List.mem_cons.mp hx with rfl | hx2
      · exact ⟨List.mem_cons_self _ _, hy⟩
      · obtain ⟨h1, h2⟩ := ih (y :: seen) x hx2
        refine ⟨List.mem_cons_of_mem _ h1, fun hc => h2 (List.mem_cons_of_mem _ hc)⟩

theorem dedupFirstGo_nodup (l : List String) :
    ∀ (seen : List String), (dedupFirstGo seen l).Nodup := by
  induction l with
  | nil => intro seen; simp [dedupFirstGo]
  | cons y ys ih =>
    intro seen
    simp only [dedupFirstGo]
    by_cases hy : y ∈ seen
    · simp only [if_pos hy]; exact ih seen
    · simp only [if_neg hy]
      refine List.nodup_cons.mpr ⟨fun hc => ?_, ih (y :: seen)⟩
      exact (dedupFirstGo_mem ys (y :: seen) y hc).2 (List.mem_cons_self _ _)

theorem dedupFirst_mem {l : List String} {x : String} (hx : x ∈ dedupFirst l) : x ∈ l :=
  (dedupFirstGo_mem l [] x hx).1

theorem dedupFirst_nodup (l : List String) : (dedupFirst l).Nodup :=
  dedupFirstGo_nodup l []

theorem mapGet_some {m : List (String × String)} {k v : String}
    (h : mapGet m k = some v) : ∃ p ∈ m, p.2 = v := by
  unfold mapGet at h
  cases hf : m.find? (fun p => decide (p.1 = k)) with
  | none => rw [hf] at h; simp at h
  | some p =>
    rw [hf] at h
    simp only [Option.map] at h
    cases h
    exact ⟨p, List.mem_of_find?_eq_some hf, rfl⟩

/-- The sanitized ids the validator associates with the raw elements of
a list, starting at a given index. -/
def sidsFrom (i : Nat) : List Json → List String
  | [] => []
  | t :: rest => sidAt i t :: sidsFrom (i + 1) rest

/-! ## Planner scan invariants -/

theorem scanStep_uniqueIds (i : Nat) (t : Json) (st : ScanState) (u : String) :
    u ∈ (scanStep i t st).uniqueIds ↔ u = sidAt i t ∨ u ∈ st.uniqueIds := by
  simp only [scanStep]
  split
  · rename_i hdup
    constructor
    · intro h; exact Or.inr h
    · rintro (rfl | h)
      · exact hdup
      · exact h
  · split
    · simp [List.mem_cons]
    · simp [List.mem_cons]

set_option maxHeartbeats 1000000 in
theorem scanStep_idMap (i : Nat) (t : Json) (st : ScanState) (p : String × String)
    (hp : p ∈ (scanStep i t st).idMap) : p ∈ st.idMap ∨ p.2 = sidAt i t := by
  simp only [scanStep] at hp
  split at hp
  · exact Or.inl hp
  · split at hp
    · rcases List.mem_cons.mp hp with rfl | hp2
      · exact Or.inr rfl
      · rcases List.mem_cons.mp hp2 with rfl | hp3
        · exact Or.inr rfl
        · exact Or.inl hp3
    · rcases List.mem_cons.mp hp with rfl | hp2
      · exact Or.inr rfl
      · rcases List.mem_cons.mp hp2 with rfl | hp3
        · exact Or.inr rfl
        · exact Or.inl hp3

theorem scanStep_drafts (i : Nat) (t : Json) (st : ScanState) :
    (scanStep i t st).drafts = st.drafts ∨
    ((scanStep i t st).drafts = st.drafts ++
        [{ id := sidAt i t
           title := titleAt t
           raw_depends_on := clampStringArray (t.getField "depends_on") 6
           acceptance_criteria := clampStringArray (t.getField "acceptance_criteria") 6
           risk := riskAt t
           side_effect := sideEffectAt t }] ∧
      titleAt t ≠ "" ∧ sidAt i t ∉ st.uniqueIds) := by
  simp only [scanStep]
  split
  · exact Or.inl rfl
  · rename_i hdup
    split
    · exact Or.inl rfl
    · rename_i htitle
      exact Or.inr ⟨rfl, htitle, hdup⟩

theorem plannerScan_ok_cons {i : Nat} {t : Json} {rest : List Json} {st st' : ScanState}
    (h : plannerScan i (t :: rest) st = .ok st') :
    plannerScan (i + 1) rest (scanStep i t st) = .ok st' := by
  simp only [plannerScan] at h
  split at h
  · exact absurd h (by simp)
  · exact h

theorem plannerScan_uniqueIds :
    ∀ (l : List Json) (i : Nat) (st st' : ScanState),
      plannerScan i l st = .ok st' →
      ∀ u, u ∈ st'.uniqueIds ↔ u ∈ st.uniqueIds ∨ u ∈ sidsFrom i l := by
  intro l
  induction l with
  | nil =>
    intro i st st' h u
    simp only [plannerScan] at h
    cases h
    simp [sidsFrom]
  | cons t rest ih =>
    intro i st st' h u
    have h2 := plannerScan_ok_cons h
    have hrec := ih (i + 1) (scanStep i t st) st' h2 u
    rw [hrec, scanStep_uniqueIds]
    simp only [sidsFrom, List.mem_cons]
    tauto

theorem plannerScan_idMap :
    ∀ (l : List Json) (i : Nat) (st st' : ScanState),
      plannerScan i l st = .ok st' →
      (∀ p ∈ st.idMap, p.2 ∈ st.uniqueIds) →
      ∀ p ∈ st'.idMap, p.2 ∈ st'.uniqueIds := by
  intro l
  induction l with
  | nil =>
    intro i st st' h hinv
    simp only [plannerScan] at h
    cases h
    exact hinv
  | cons t rest ih =>
    intro i st st' h hinv
    have h2 := plannerScan_ok_cons h
    refine ih (i + 1) (scanStep i t st) st' h2 ?_
    intro p hp
    rcases scanStep_idMap i t st p hp with hold | hnew
    · rw [scanStep_uniqueIds]
      exact Or.inr (hinv p hold)
    · rw [scanStep_uniqueIds]
      exact Or.inl hnew

theorem plannerScan_drafts :
    ∀ (l : List Json) (i : Nat) (st st' : ScanState),
      plannerScan i l st = .ok st' →
      ∀ d ∈ st'.drafts, d ∈ st.drafts ∨
        ∃ k, ∃ hk : k < l.length,
          d.id = sidAt (i + k) l[k] ∧ d.title = titleAt l[k] ∧ d.title ≠ "" ∧
          d.id ∉ st.uniqueIds ∧ d.id ∉ sidsFrom i (l.take k) := by
  intro l
  induction l with
  | nil =>
    intro i st st' h d hd
    simp only [plannerScan] at h
    cases h
    exact Or.inl hd
  | cons t rest ih =>
    intro i st st' h d hd
    have h2 := plannerScan_ok_cons h
    rcases ih (i + 1) (scanStep i t st) st' h2 d hd with hold | ⟨k, hk, hid, htitle, hne, hnotin, hpre⟩
    · -- the draft was already present after the first element was scanned
      rcases scanStep_drafts i t st with heq | ⟨heq, htne, hsid⟩
      · rw [heq] at hold
        exact Or.inl hold
      · rw [heq] at hold
        rcases List.mem_append.mp hold with holder | hnewd
        · exact Or.inl holder
        · simp only [List.mem_singleton] at hnewd
          subst hnewd
          refine Or.inr ⟨0, by simp, ?_, ?_, htne, hsid, ?_⟩
          · simp
          · simp
          · simp [sidsFrom]
    · -- the draft comes from the tail
      have hids : d.id ∉ st.uniqueIds ∧ d.id ≠ sidAt i t := by
        constructor
        · intro hc
          exact hnotin ((scanStep_uniqueIds i t st d.id).mpr (Or.inr hc))
        · intro hc
          exact hnotin ((scanStep_uniqueIds i t st d.id).mpr (Or.inl hc))
      refine Or.inr ⟨k + 1, by simpa using Nat.succ_lt_succ hk, ?_, ?_, hne, hids.1, ?_⟩
      · simpa [Nat.add_comm, Nat.add_assoc, Nat.add_left_comm] using hid
      · simpa using htitle
      · intro hc
        simp only [List.take, sidsFrom, List.mem_cons] at hc
        rcases hc with hc1 | hc2
        · exact hids.2 hc1
        · exact hpre hc2

theorem plannerScan_drafts_nodup :
    ∀ (l : List Json) (i : Nat) (st st' : ScanState),
      plannerScan i l st = .ok st' →
      (st.drafts.map DraftTask.id).Nodup →
      (∀ d ∈ st.drafts, d.id ∈ st.uniqueIds) →
      (st'.drafts.map DraftTask.id).Nodup ∧ ∀ d ∈ st'.drafts, d.id ∈ st'.uniqueIds := by
  intro l
  induction l with
  | nil =>
    intro i st st' h hnd hsub
    simp only [plannerScan] at h
    cases h
    exact ⟨hnd, hsub⟩
  | cons t rest ih =>
    intro i st st' h hnd hsub
    have h2 := plannerScan_ok_cons h
    refine ih (i + 1) (scanStep i t st) st' h2 ?_ ?_
    · rcases scanStep_drafts i t st with heq | ⟨heq, _, hsid⟩
      · rw [heq]; exact hnd
      · rw [heq]
        simp only [List.map_append, List.map_cons, List.map_nil]
        rw [List.nodup_append]
        refine ⟨hnd, by simp, ?_⟩
        intro x hx
        simp only [List.mem_singleton]
        obtain ⟨d, hd, rfl⟩ := List.mem_map.mp hx
        intro hc
        exact hsid (hc ▸ hsub d hd)
    · intro d hd
      rcases scanStep_drafts i t st with heq | ⟨heq, _, _⟩
      · rw [heq] at hd
        exact (scanStep_uniqueIds i t st d.id).mpr (Or.inr (hsub d hd))
      · rw [heq] at hd
        rcases List.mem_append.mp hd with holder | hnewd
        · exact (scanStep_uniqueIds i t st d.id).mpr (Or.inr (hsub d holder))
        · simp only [List.mem_singleton] at hnewd
          subst hnewd
          exact (scanStep_uniqueIds i t st _).mpr (Or.inl rfl)

theorem mem_resolveDeps {m : List (String × String)} {task : DraftTask} {d : String}
    (hd : d ∈ resolveDeps m task) : d ≠ task.id ∧ ∃ p ∈ m, p.2 = d := by
  unfold resolveDeps at hd
  have hmem := List.mem_filter.mp hd
  refine ⟨by simpa using hmem.2, ?_⟩
  have hdedup := dedupFirst_mem hmem.1
  obtain ⟨o, ho, heq⟩ := List.mem_filterMap.mp hdedup
  obtain ⟨dep, _, rfl⟩ := List.mem_map.mp ho
  simp only [id_eq] at heq
  revert heq
  cases hg : mapGet m dep with
  | some v =>
    intro heq
    cases heq
    exact mapGet_some hg
  | none =>
    intro heq
    exact mapGet_some heq

theorem resolveDeps_nodup (m : List (String × String)) (task : DraftTask) :
    (resolveDeps m task).Nodup := by
  unfold resolveDeps
  exact (dedupFirst_nodup _).filter _

/-! ## Selection lemmas -/

theorem isRunnable_spec {nodes : List ActiveTaskNodeState} {t : ActiveTaskNodeState}
    (h : isRunnable nodes t = true) :
    t.status = .pending ∧ ∀ d ∈ t.depends_on, ∃ m ∈ nodes, m.id = d ∧ m.status = .done := by
  unfold isRunnable at h
  rw [Bool.and_eq_true] at h
  obtain ⟨h1, h2⟩ := h
  refine ⟨by simpa using h1, ?_⟩
  intro d hd
  have hall := List.all_eq_true.mp h2 d hd
  revert hall
  cases hf : findById nodes d with
  | none => intro hc; simp at hc
  | some m =>
    intro hm
    have hmem : m ∈ nodes := by
      have := List.mem_of_find?_eq_some hf
      simpa [findById, List.mem_reverse] using this
    have hid : m.id = d := by
      have := List.find?_some hf
      simpa using this
    exact ⟨m, hmem, hid, by simpa using hm⟩

theorem getNextRunnableIdxAux_some {nodes : List ActiveTaskNodeState} :
    ∀ (l : List ActiveTaskNodeState) (i j : Nat),
      getNextRunnableIdxAux nodes l i = some j →
      i ≤ j ∧ ∃ hk : j - i < l.length, isRunnable nodes l[j - i] = true := by
  intro l
  induction l with
  | nil => intro i j h; simp [getNextRunnableIdxAux] at h
  | cons n rest ih =>
    intro i j h
    simp only [getNextRunnableIdxAux] at h
    split at h
    · rename_i hrun
      cases h
      refine ⟨Nat.le_refl _, ?_⟩
      have h0 : i - i = 0 := Nat.sub_self i
      refine ⟨by simp [h0], ?_⟩
      simpa [h0] using hrun
    · rename_i hrun
      obtain ⟨hij, hk, hr⟩ := ih (i + 1) j h
      have hij2 : i ≤ j := Nat.le_of_succ_le hij
      have hsub : j - i = (j - (i + 1)) + 1 := by omega
      refine ⟨hij2, ?_, ?_⟩
      · simpa [hsub] using Nat.succ_lt_succ hk
      · simpa [hsub] using hr

theorem getNextRunnableIdx_spec {nodes : List ActiveTaskNodeState} {idx : Nat}
    (h : getNextRunnableIdx nodes = some idx) :
    ∃ hk : idx < nodes.length, isRunnable nodes nodes[idx] = true := by
  obtain ⟨_, hk, hr⟩ := getNextRunnableIdxAux_some nodes 0 idx h
  refine ⟨by simpa using hk, by simpa using hr⟩

theorem getNextRunnableIdx_get {nodes : List ActiveTaskNodeState} {idx : Nat}
    (h : getNextRunnableIdx nodes = some idx) :
    ∃ t0, nodes[idx]? = some t0 ∧ isRunnable nodes t0 = true := by
  obtain ⟨hk, hr⟩ := getNextRunnableIdx_spec h
  exact ⟨nodes[idx], List.getElem?_eq_getElem hk, hr⟩

theorem getNextRunnableIdxAux_none {nodes : List ActiveTaskNodeState} :
    ∀ (l : List ActiveTaskNodeState) (i : Nat),
      (∀ n ∈ l, isRunnable nodes n = false) →
      getNextRunnableIdxAux nodes l i = none := by
  intro l
  induction l with
  | nil => intro i _; simp [getNextRunnableIdxAux]
  | cons n rest ih =>
    intro i hall
    simp only [getNextRunnableIdxAux]
    rw [if_neg]
    · exact ih (i + 1) (fun m hm => hall m (List.mem_cons_of_mem _ hm))
    · simp [hall n (List.mem_cons_self _ _)]

/-- getNextRunnableTask returns a pending node all of whose dependency
ids resolve to done nodes of the same graph. -/
theorem getNextRunnableTask_sound {nodes : List ActiveTaskNodeState}
    {t : ActiveTaskNodeState} (h : getNextRunnableTask nodes = some t) :
    t.status = .pending ∧ ∀ d ∈ t.depends_on, ∃ m ∈ nodes, m.id = d ∧ m.status = .done := by
  unfold getNextRunnableTask at h
  cases hidx : getNextRunnableIdx nodes with
  | none => rw [hidx] at h; simp at h
  | some idx =>
    rw [hidx] at h
    simp only [Option.bind] at h
    obtain ⟨hk, hr⟩ := getNextRunnableIdx_spec hidx
    rw [List.getElem?_eq_getElem hk] at h
    cases h
    exact isRunnable_spec hr

/-! ## Step characterization -/

theorem attempt_cases (paths : WorkspacePaths) (t : ActiveTaskNodeState)
    (dep : ExecutorDependencyHint) (shell : Except String ShellResult) :
    (attemptUserSpaceInstall paths t dep shell =
      ({ status := .escalated,
         details := "Escalated " ++ dep.name ++ " to " ++ paths.installRequirementsFile },
       [mkInstallRequirement t dep]) ∧
      (dep.install_command.getD "" = "" ∨ dep.requires_root = true ∨
        includesRootLevelInstall (dep.install_command.getD "") = true)) ∨
    ((attemptUserSpaceInstall paths t dep shell).1.status ≠ .escalated ∧
      (attemptUserSpaceInstall paths t dep shell).2 = [] ∧
      ¬(dep.install_command.getD "" = "" ∨ dep.requires_root = true ∨
        includesRootLevelInstall (dep.install_command.getD "") = true)) := by
  unfold attemptUserSpaceInstall
  dsimp only
  split_ifs with hc
  · refine Or.inl ⟨rfl, ?_⟩
    rcases Bool.or_eq_true _ _ |>.mp hc with h1 | h2
    · exact Or.inl (by simpa using h1)
    · rcases Bool.or_eq_true _ _ |>.mp h2 with h3 | h4
      · exact Or.inr (Or.inl h3)
      · exact Or.inr (Or.inr h4)
  · refine Or.inr ⟨?_, ?_, ?_⟩
    · cases shell with
      | error e => simp
      | ok r => split <;> first | (split <;> simp) | simp
    · cases shell with
      | error e => rfl
      | ok r => split <;> first | (split <;> rfl) | rfl
    · intro hdisj
      apply hc
      rcases hdisj with h1 | h2 | h3
      · simp [h1]
      · simp [h2]
      · simp [h3]

theorem attempt_installed_snd {paths : WorkspacePaths} {t : ActiveTaskNodeState}
    {dep : ExecutorDependencyHint} {shell : Except String ShellResult}
    (h : (attemptUserSpaceInstall paths t dep shell).1.status = .installed) :
    (attemptUserSpaceInstall paths t dep shell).2 = [] := by
  rcases attempt_cases paths t dep shell with ⟨heq, _⟩ | ⟨_, hsnd, _⟩
  · rw [heq] at h; simp at h
  · exact hsnd

theorem attempt_failed_snd {paths : WorkspacePaths} {t : ActiveTaskNodeState}
    {dep : ExecutorDependencyHint} {shell : Except String ShellResult}
    (h : (attemptUserSpaceInstall paths t dep shell).1.status = .failed) :
    (attemptUserSpaceInstall paths t dep shell).2 = [] := by
  rcases attempt_cases paths t dep shell with ⟨heq, _⟩ | ⟨_, hsnd, _⟩
  · rw [heq] at h; simp at h
  · exact hsnd

theorem attempt_escalated_snd {paths : WorkspacePaths} {t : ActiveTaskNodeState}
    {dep : ExecutorDependencyHint} {shell : Except String ShellResult}
    (h : (attemptUserSpaceInstall paths t dep shell).1.status = .escalated) :
    (attemptUserSpaceInstall paths t dep shell).2 = [mkInstallRequirement t dep] := by
  rcases attempt_cases paths t dep shell with ⟨heq, _⟩ | ⟨hne, _, _⟩
  · rw [heq]
  · exact absurd h hne

theorem attempt_escalated_iff {paths : WorkspacePaths} {t : ActiveTaskNodeState}
    {dep : ExecutorDependencyHint} {shell : Except String ShellResult} :
    (attemptUserSpaceInstall paths t dep shell).1.status = .escalated ↔
    (dep.install_command.getD "" = "" ∨ dep.requires_root = true ∨
      includesRootLevelInstall (dep.install_command.getD "") = true) := by
  rcases attempt_cases paths t dep shell with ⟨heq, hcond⟩ | ⟨hne, _, hncond⟩
  · rw [heq]
    exact iff_of_true rfl hcond
  · exact iff_of_false hne hncond

/-- The five single-node outcomes of the verdict phase. -/
def verdictNode (config : AutonomousRuntimeConfig) (replanCount : Nat)
    (tIn : ActiveTaskNodeState) (execution : ExecutorOutput) (critic : CriticOutput)
    (tNew : ActiveTaskNodeState) : Prop :=
  (critic.verdict = .pass ∧ execution.status = .done ∧
    tNew = { tIn with status := NodeStatus.done,
                      result_summary := some execution.result_summary,
                      critic_issues := some [] }) ∨
  (critic.verdict = .retry ∧ tIn.retries < config.retry_budget_per_node ∧
    tNew = { tIn with critic_issues := some critic.issues,
                      retries := tIn.retries + 1, status := NodeStatus.pending }) ∨
  (critic.verdict = .retry ∧ ¬ tIn.retries < config.retry_budget_per_node ∧
    tNew = { tIn with critic_issues := some critic.issues, status := NodeStatus.failed }) ∨
  (critic.verdict = .replan ∧ ¬ replanCount < config.replan_budget_per_run ∧
    tNew = { tIn with status := NodeStatus.blocked,
                      critic_issues := some (if critic.issues = [] then
                        ["Replan budget exhausted."] else critic.issues) }) ∨
  (¬(critic.verdict = .pass ∧ execution.status = .done) ∧
    critic.verdict ≠ .retry ∧ critic.verdict ≠ .replan ∧
    tNew = { tIn with status := NodeStatus.blocked, critic_issues := some critic.issues })

theorem applyVerdict_cases {config : AutonomousRuntimeConfig} {goal : String}
    {s1 : EngineState} {idx : Nat} {tIn : ActiveTaskNodeState}
    {execution : ExecutorOutput} {criticRaw replanRaw : Option Json} {out : StepOut}
    (h : applyVerdict config goal s1 idx tIn execution criticRaw replanRaw = .ok out) :
    (∃ tNew, out = .cont { s1 with status := .criticizing, nodes := s1.nodes.set idx tNew } ∧
      verdictNode config s1.replanCount tIn execution
        (validateCriticOutput criticRaw tIn.id) tNew) ∨
    (∃ plan, (validateCriticOutput criticRaw tIn.id).verdict = .replan ∧
      s1.replanCount < config.replan_budget_per_run ∧
      validatePlannerOutput replanRaw goal config = .ok plan ∧
      out = .cont
        { s1 with
            status := .replanning,
            replanCount := s1.replanCount + 1,
            nodes := mergeReplanIntoGraph { s1 with status := GraphStatus.criticizing } plan,
            summary := plan.summary }) := by
  unfold applyVerdict at h
  dsimp only at h
  split at h
  · rename_i h1
    cases h
    exact Or.inl ⟨_, rfl, Or.inl ⟨h1.1, h1.2, rfl⟩⟩
  · rename_i h1
    split at h
    · rename_i h2
      split at h
      · rename_i h3
        cases h
        exact Or.inl ⟨_, rfl, Or.inr (Or.inl ⟨h2, h3, rfl⟩)⟩
      · rename_i h3
        cases h
        exact Or.inl ⟨_, rfl, Or.inr (Or.inr (Or.inl ⟨h2, h3, rfl⟩))⟩
    · rename_i h2
      split at h
      · rename_i h3
        split at h
        · rename_i h4
          split at h
          · rename_i e hval
            exact absurd h (by simp)
          · rename_i plan hval
            cases h
            exact Or.inr ⟨plan, h3, h4, hval, rfl⟩
        · rename_i h4
          cases h
          exact Or.inl ⟨_, rfl, Or.inr (Or.inr (Or.inr (Or.inl ⟨h3, h4, rfl⟩)))⟩
      · rename_i h3
        cases h
        exact Or.inl ⟨_, rfl, Or.inr (Or.inr (Or.inr (Or.inr ⟨h1, h2, h3, rfl⟩)))⟩

theorem loopStep_cases {paths : WorkspacePaths} {config : AutonomousRuntimeConfig}
    {goal : String} {s : EngineState} {o : IterOracle} {out : StepOut}
    (h : loopStep paths config goal s o = .ok out) :
    (getNextRunnableIdx s.nodes = none ∧
      out = .halt { s with status := terminalStatus s.nodes, current_task_id := none }) ∨
    (∃ idx t0, getNextRunnableIdx s.nodes = some idx ∧ s.nodes[idx]? = some t0 ∧
      ((∃ dep, (validateExecutorOutput o.executorRaw t0.id).missing_dependency = some dep ∧
          dep.name ≠ "" ∧
          (((attemptUserSpaceInstall paths (tInOf t0) dep o.shell).1.status = .installed ∧
            out = .cont
              { dispatchState s idx t0 with
                  installDoc :=
                    s.installDoc ++ (attemptUserSpaceInstall paths (tInOf t0) dep o.shell).2,
                  nodes := (dispatchState s idx t0).nodes.set idx
                    { tInOf t0 with
                        retries := t0.retries + 1,
                        status := NodeStatus.pending,
                        critic_issues := some [] } }) ∨
           ((attemptUserSpaceInstall paths (tInOf t0) dep o.shell).1.status = .escalated ∧
            out = .cont
              { dispatchState s idx t0 with
                  installDoc :=
                    s.installDoc ++ (attemptUserSpaceInstall paths (tInOf t0) dep o.shell).2,
                  nodes := (dispatchState s idx t0).nodes.set idx
                    { tInOf t0 with
                        status := NodeStatus.blocked,
                        critic_issues :=
                          some [(attemptUserSpaceInstall paths (tInOf t0) dep o.shell).1.details] } }) ∨
           ((attemptUserSpaceInstall paths (tInOf t0) dep o.shell).1.status = .failed ∧
            applyVerdict config goal (dispatchState s idx t0) idx (tInOf t0)
              (validateExecutorOutput o.executorRaw t0.id) o.criticRaw o.replanRaw = .ok out))) ∨
       (((validateExecutorOutput o.executorRaw t0.id).missing_dependency = none ∨
          (∃ dep, (validateExecutorOutput o.executorRaw t0.id).missing_dependency = some dep ∧
            dep.name = "")) ∧
        applyVerdict config goal (dispatchState s idx t0) idx (tInOf t0)
          (validateExecutorOutput o.executorRaw t0.id) o.criticRaw o.replanRaw = .ok out))) := by
  unfold loopStep at h
  split at h
  · rename_i hidx
    cases h
    exact Or.inl ⟨hidx, rfl⟩
  · rename_i idx hidx
    split at h
    · rename_i hnone
      obtain ⟨t0, ht0, _⟩ := getNextRunnableIdx_get hidx
      rw [ht0] at hnone
      exact absurd hnone (by simp)
    · rename_i t0 ht0
      dsimp only at h
      split at h
      · rename_i dep hmd
        split at h
        · rename_i hname
          split at h
          · rename_i hst
            cases h
            exact Or.inr ⟨idx, t0, hidx, ht0, Or.inl ⟨dep, hmd, hname, Or.inl ⟨hst, rfl⟩⟩⟩
          · rename_i hst
            cases h
            exact Or.inr ⟨idx, t0, hidx, ht0,
              Or.inl ⟨dep, hmd, hname, Or.inr (Or.inl ⟨hst, rfl⟩)⟩⟩
          · rename_i hst
            rw [attempt_failed_snd hst, List.append_nil] at h
            exact Or.inr ⟨idx, t0, hidx, ht0,
              Or.inl ⟨dep, hmd, hname, Or.inr (Or.inr ⟨hst, h⟩)⟩⟩
        · rename_i hname
          exact Or.inr ⟨idx, t0, hidx, ht0,
            Or.inr ⟨Or.inr ⟨dep, hmd, of_not_not hname⟩, h⟩⟩
      · rename_i hmd
        exact Or.inr ⟨idx, t0, hidx, ht0, Or.inr ⟨Or.inl hmd, h⟩⟩

@[simp] theorem StepOut_state_halt (s : EngineState) : (StepOut.halt s).state = s := rfl

@[simp] theorem StepOut_state_cont (s : EngineState) : (StepOut.cont s).state = s := rfl

@[simp] theorem dispatchState_nodes (s : EngineState) (idx : Nat) (t0 : ActiveTaskNodeState) :
    (dispatchState s idx t0).nodes = s.nodes.set idx (tInOf t0) := rfl

@[simp] theorem dispatchState_replanCount (s : EngineState) (idx : Nat) (t0 : ActiveTaskNodeState) :
    (dispatchState s idx t0).replanCount = s.replanCount := rfl

@[simp] theorem dispatchState_installDoc (s : EngineState) (idx : Nat) (t0 : ActiveTaskNodeState) :
    (dispatchState s idx t0).installDoc = s.installDoc := rfl

@[simp] theorem tInOf_id (t0 : ActiveTaskNodeState) : (tInOf t0).id = t0.id := rfl

@[simp] theorem tInOf_retries (t0 : ActiveTaskNodeState) : (tInOf t0).retries = t0.retries := rfl

@[simp] theorem tInOf_status (t0 : ActiveTaskNodeState) :
    (tInOf t0).status = NodeStatus.in_progress := rfl

/-- Membership in the list produced by a replan merge. -/
theorem mem_mergeReplanIntoGraph {graph : EngineState} {plan : PlannerOutput}
    {n : ActiveTaskNodeState} (hn : n ∈ mergeReplanIntoGraph graph plan) :
    (n ∈ graph.nodes ∧ n.status = .done) ∨
    (∃ t ∈ plan.tasks, n = initNode t) := by
  unfold mergeReplanIntoGraph at hn
  rcases List.mem_append.mp hn with hc | hr
  · have := List.mem_filter.mp hc
    exact Or.inl ⟨this.1, by simpa using this.2⟩
  · obtain ⟨t, ht, rfl⟩ := List.mem_map.mp hr
    exact Or.inr ⟨t, List.mem_filter.mp ht |>.1, rfl⟩

/-- C1: in every engine transition, a node shows status done afterwards
only if it was already done before the transition (done nodes are kept
untouched, also across a replan merge) or it is the selected node, the
critic verdict validated to pass, and the validated executor status is
done; no retry, replan, dependency-install or blocking branch ever
assigns done. -/
theorem done_only_after_pass_and_executor_done
    {paths : WorkspacePaths} {config : AutonomousRuntimeConfig} {goal : String}
    {s : EngineState} {o : IterOracle} {out : StepOut}
    (h : loopStep paths config goal s o = .ok out) :
    ∀ n' ∈ out.state.nodes, n'.status = .done →
      (∃ n ∈ s.nodes, n.id = n'.id ∧ n.status = .done) ∨
      (∃ idx t0, getNextRunnableIdx s.nodes = some idx ∧ s.nodes[idx]? = some t0 ∧
        n'.id = t0.id ∧
        (validateCriticOutput o.criticRaw t0.id).verdict = .pass ∧
        (validateExecutorOutput o.executorRaw t0.id).status = .done) := by
  intro n' hn' hdone
  rcases loopStep_cases h with ⟨hidx, rfl⟩ | ⟨idx, t0, hidx, ht0, hcase⟩
  · simp only [StepOut_state_halt] at hn'
    exact Or.inl ⟨n', hn', rfl, hdone⟩
  · rcases hcase with ⟨dep, hmd, hname, hsub⟩ | ⟨_, happly⟩
    · rcases hsub with ⟨hst, rfl⟩ | ⟨hst, rfl⟩ | ⟨hst, happly⟩
      · simp only [StepOut_state_cont, dispatchState_nodes, List.set_set] at hn'
        rcases List.mem_or_eq_of_mem_set hn' with hmem | rfl
        · exact Or.inl ⟨n', hmem, rfl, hdone⟩
        · simp [tInOf] at hdone
      · simp only [StepOut_state_cont, dispatchState_nodes, List.set_set] at hn'
        rcases List.mem_or_eq_of_mem_set hn' with hmem | rfl
        · exact Or.inl ⟨n', hmem, rfl, hdone⟩
        · simp [tInOf] at hdone
      · rcases applyVerdict_cases happly with ⟨tNew, rfl, hv⟩ | ⟨plan, hverd, hlt, hval, rfl⟩
        · simp only [StepOut_state_cont, dispatchState_nodes, List.set_set] at hn'
          rcases List.mem_or_eq_of_mem_set hn' with hmem | rfl
          · exact Or.inl ⟨n', hmem, rfl, hdone⟩
          · rcases hv with ⟨hp, he, rfl⟩ | ⟨_, _, rfl⟩ | ⟨_, _, rfl⟩ | ⟨_, _, rfl⟩ | ⟨_, _, _, rfl⟩
            · exact Or.inr ⟨idx, t0, hidx, ht0, rfl, hp, he⟩
            all_goals simp [tInOf] at hdone
        · simp only [StepOut_state_cont] at hn'
          rcases mem_mergeReplanIntoGraph hn' with ⟨hmem, hdone2⟩ | ⟨t, ht, rfl⟩
          · simp only [dispatchState_nodes] at hmem
            rcases List.mem_or_eq_of_mem_set hmem with hmem2 | rfl
            · exact Or.inl ⟨n', hmem2, rfl, hdone⟩
            · simp [tInOf] at hdone2
          · simp [initNode] at hdone
    · rcases applyVerdict_cases happly with ⟨tNew, rfl, hv⟩ | ⟨plan, hverd, hlt, hval, rfl⟩
      · simp only [StepOut_state_cont, dispatchState_nodes, List.set_set] at hn'
        rcases List.mem_or_eq_of_mem_set hn' with hmem | rfl
        · exact Or.inl ⟨n', hmem, rfl, hdone⟩
        · rcases hv with ⟨hp, he, rfl⟩ | ⟨_, _, rfl⟩ | ⟨_, _, rfl⟩ | ⟨_, _, rfl⟩ | ⟨_, _, _, rfl⟩
          · exact Or.inr ⟨idx, t0, hidx, ht0, rfl, hp, he⟩
          all_goals simp [tInOf] at hdone
      · simp only [StepOut_state_cont] at hn'
        rcases mem_mergeReplanIntoGraph hn' with ⟨hmem, hdone2⟩ | ⟨t, ht, rfl⟩
        · simp only [dispatchState_nodes] at hmem
          rcases List.mem_or_eq_of_mem_set hmem with hmem2 | rfl
          · exact Or.inl ⟨n', hmem2, rfl, hdone⟩
          · simp [tInOf] at hdone2
        · simp [initNode] at hdone

theorem done_only_after_pass_and_executor_done_witness :
    loopStep pathsWS cfgTen "g" c4state c1oracle = .ok (.cont c1outState) ∧
    (c1doneNode.status = .done →
      ((∃ n ∈ c4state.nodes, n.id = c1doneNode.id ∧ n.status = .done) ∨
       (∃ idx t0, getNextRunnableIdx c4state.nodes = some idx ∧
         c4state.nodes[idx]? = some t0 ∧ c1doneNode.id = t0.id ∧
         (validateCriticOutput c1oracle.criticRaw t0.id).verdict = .pass ∧
         (validateExecutorOutput c1oracle.executorRaw t0.id).status = .done))) := by
  have hstep : loopStep pathsWS cfgTen "g" c4state c1oracle = .ok (.cont c1outState) := by
    rfl
  refine ⟨hstep, fun hd => ?_⟩
  exact done_only_after_pass_and_executor_done hstep c1doneNode (by simp [c1outState]) hd

theorem mem_set_self {α} (l : List α) (i : Nat) (b : α) (h : i < l.length) :
    b ∈ l.set i b := by
  have h2 : i < (l.set i b).length := by simpa using h
  have h3 : (l.set i b)[i] = b := List.getElem_set_self h2
  have h4 := List.getElem_mem h2
  rwa [h3] at h4

theorem installAction_eq (paths : WorkspacePaths) {s : EngineState} {o : IterOracle}
    {idx : Nat} {t0 : ActiveTaskNodeState} {dep : ExecutorDependencyHint}
    (hidx : getNextRunnableIdx s.nodes = some idx) (ht0 : s.nodes[idx]? = some t0)
    (hmd : (validateExecutorOutput o.executorRaw t0.id).missing_dependency = some dep)
    (hname : dep.name ≠ "") :
    installAction paths s o =
      some (attemptUserSpaceInstall paths (tInOf t0) dep o.shell).1.status := by
  unfold installAction
  simp only [hidx, ht0, hmd]
  rw [if_pos hname]
  rfl

theorem loopStep_replanCount {paths : WorkspacePaths} {config : AutonomousRuntimeConfig}
    {goal : String} {s : EngineState} {o : IterOracle} {out : StepOut}
    (h : loopStep paths config goal s o = .ok out)
    (hb : s.replanCount ≤ config.replan_budget_per_run) :
    out.state.replanCount ≤ config.replan_budget_per_run := by
  rcases loopStep_cases h with ⟨_, rfl⟩ | ⟨idx, t0, hidx, ht0, hcase⟩
  · simpa using hb
  · rcases hcase with ⟨dep, hmd, hname, hsub⟩ | ⟨_, happly⟩
    · rcases hsub with ⟨_, rfl⟩ | ⟨_, rfl⟩ | ⟨_, happly⟩
      · simpa using hb
      · simpa using hb
      · rcases applyVerdict_cases happly with ⟨tNew, rfl, _⟩ | ⟨plan, _, hlt, _, rfl⟩
        · simpa using hb
        · simp only [StepOut_state_cont, dispatchState_replanCount]
          exact Nat.succ_le_of_lt (by simpa using hlt)
    · rcases applyVerdict_cases happly with ⟨tNew, rfl, _⟩ | ⟨plan, _, hlt, _, rfl⟩
      · simpa using hb
      · simp only [StepOut_state_cont, dispatchState_replanCount]
        exact Nat.succ_le_of_lt (by simpa using hlt)

theorem runLoopAux_le_replan {paths : WorkspacePaths} {config : AutonomousRuntimeConfig}
    {goal : String} {oracles : Nat → IterOracle} :
    ∀ (fuel i : Nat) (s sF : EngineState),
      runLoopAux paths config goal oracles i fuel s = .ok sF →
      s.replanCount ≤ config.replan_budget_per_run →
      sF.replanCount ≤ config.replan_budget_per_run := by
  intro fuel
  induction fuel with
  | zero =>
    intro i s sF h hb
    simp only [runLoopAux] at h
    cases h
    exact hb
  | succ n ih =>
    intro i s sF h hb
    simp only [runLoopAux] at h
    cases hstep : loopStep paths config goal s (oracles i) with
    | error e => rw [hstep] at h; simp at h
    | ok st =>
      rw [hstep] at h
      cases st with
      | halt s1 =>
        cases h
        simpa using loopStep_replanCount hstep hb
      | cont s1 =>
        exact ih (i + 1) s1 sF h (by simpa using loopStep_replanCount hstep hb)

/-- C5: the replan counter never exceeds replan_budget_per_run over a
whole run, and a replan verdict arriving when the budget is already
exhausted performs no replan: the counter is unchanged and the
triggering node is blocked, with the critic issues defaulting to the
fixed replan-budget-exhausted message when empty. -/
theorem replan_budget_respected :
    (∀ (paths : WorkspacePaths) (config : AutonomousRuntimeConfig) (goal : String)
       (plannerRaw : Option Json) (oracles : Nat → IterOracle) (res : AutonomousRunResult),
      runAutonomousV3 paths config goal plannerRaw oracles = .ok res →
      res.graph.replanCount ≤ config.replan_budget_per_run) ∧
    (∀ (paths : WorkspacePaths) (config : AutonomousRuntimeConfig) (goal : String)
       (s : EngineState) (o : IterOracle) (out : StepOut) (idx : Nat)
       (t0 : ActiveTaskNodeState),
      loopStep paths config goal s o = .ok out →
      getNextRunnableIdx s.nodes = some idx → s.nodes[idx]? = some t0 →
      (validateCriticOutput o.criticRaw t0.id).verdict = .replan →
      config.replan_budget_per_run ≤ s.replanCount →
      (installAction paths s o = none ∨ installAction paths s o = some .failed) →
      out.state.replanCount = s.replanCount ∧
      ∃ n' ∈ out.state.nodes, n'.id = t0.id ∧ n'.status = .blocked ∧
        n'.critic_issues = some
          (if (validateCriticOutput o.criticRaw t0.id).issues = []
           then ["Replan budget exhausted."]
           else (validateCriticOutput o.criticRaw t0.id).issues)) := by
  constructor
  · intro paths config goal plannerRaw oracles res h
    unfold runAutonomousV3 at h
    split at h
    · simp at h
    · rename_i planner hplan
      dsimp only at h
      split at h
      · simp at h
      · rename_i sF hloop
        cases h
        have hle := runLoopAux_le_replan _ _ _ _ hloop (Nat.zero_le _)
        dsimp only
        split
        · exact hle
        · simpa using hle
  · intro paths config goal s o out idx t0 h hidx ht0 hverd hbudget hinst
    have hverdIn : (validateCriticOutput o.criticRaw (tInOf t0).id).verdict = .replan := hverd
    rcases loopStep_cases h with ⟨hnone, _⟩ | ⟨idx2, t02, hidx2, ht02, hcase⟩
    · rw [hidx] at hnone; cases hnone
    · have hsame : idx = idx2 := Option.some.inj (hidx.symm.trans hidx2)
      subst hsame
      have hsame2 : t0 = t02 := Option.some.inj (ht0.symm.trans ht02)
      subst hsame2
      rcases hcase with ⟨dep, hmd, hname, hsub⟩ | ⟨_, happly⟩
      · have hia := installAction_eq paths hidx ht0 hmd hname
        rcases hsub with ⟨hst, _⟩ | ⟨hst, _⟩ | ⟨hst, happly⟩
        · rw [hst] at hia
          rcases hinst with hn | hf
          · rw [hia] at hn; cases hn
          · rw [hia] at hf; cases hf
        · rw [hst] at hia
          rcases hinst with hn | hf
          · rw [hia] at hn; cases hn
          · rw [hia] at hf; cases hf
        · rcases applyVerdict_cases happly with ⟨tNew, rfl, hv⟩ | ⟨plan, _, hlt, _, rfl⟩
          · rcases hv with ⟨hp, _, _⟩ | ⟨hr, _, _⟩ | ⟨hr, _, _⟩ | ⟨_, hnlt, rfl⟩ | ⟨_, _, hnr, _⟩
            · rw [hverdIn] at hp; exact absurd hp (by decide)
            · rw [hverdIn] at hr; exact absurd hr (by decide)
            · rw [hverdIn] at hr; exact absurd hr (by decide)
            · refine ⟨by simp, ?_⟩
              obtain ⟨hk, _⟩ := getNextRunnableIdx_spec hidx
              exact ⟨{ tInOf t0 with
                         status := NodeStatus.blocked,
                         critic_issues := some
                           (if (validateCriticOutput o.criticRaw (tInOf t0).id).issues = []
                            then ["Replan budget exhausted."]
                            else (validateCriticOutput o.criticRaw (tInOf t0).id).issues) },
                     by simp only [StepOut_state_cont, dispatchState_nodes, List.set_set]
                        exact mem_set_self _ idx _ hk,
                     rfl, rfl, rfl⟩
            · exact absurd hverd hnr
          · exact absurd (by simpa using hlt) (Nat.not_lt_of_le hbudget)
      · rcases applyVerdict_cases happly with ⟨tNew, rfl, hv⟩ | ⟨plan, _, hlt, _, rfl⟩
        · rcases hv with ⟨hp, _, _⟩ | ⟨hr, _, _⟩ | ⟨hr, _, _⟩ | ⟨_, hnlt, rfl⟩ | ⟨_, _, hnr, _⟩
          · rw [hverdIn] at hp; exact absurd hp (by decide)
          · rw [hverdIn] at hr; exact absurd hr (by decide)
          · rw [hverdIn] at hr; exact absurd hr (by decide)
          · refine ⟨by simp, ?_⟩
            obtain ⟨hk, _⟩ := getNextRunnableIdx_spec hidx
            exact ⟨{ tInOf t0 with
                       status := NodeStatus.blocked,
                       critic_issues := some
                         (if (validateCriticOutput o.criticRaw (tInOf t0).id).issues = []
                          then ["Replan budget exhausted."]
                          else (validateCriticOutput o.criticRaw (tInOf t0).id).issues) },
                   by simp only [StepOut_state_cont, dispatchState_nodes, List.set_set]
                      exact mem_set_self _ idx _ hk,
                   rfl, rfl, rfl⟩
          · exact absurd hverd hnr
        · exact absurd (by simpa using hlt) (Nat.not_lt_of_le hbudget)

theorem replan_budget_respected_witness :
    (StepOut.cont c5out).state.replanCount = c5state.replanCount ∧
    ∃ n' ∈ (StepOut.cont c5out).state.nodes,
      n'.id = (initNode (mkSimpleTask "task-1" "A" [])).id ∧ n'.status = .blocked ∧
      n'.critic_issues = some
        (if (validateCriticOutput c4oracle.criticRaw
              (initNode (mkSimpleTask "task-1" "A" [])).id).issues = []
         then ["Replan budget exhausted."]
         else (validateCriticOutput c4oracle.criticRaw
              (initNode (mkSimpleTask "task-1" "A" [])).id).issues) := by
  have hstep : loopStep pathsWS cfgTen "g" c5state c4oracle = .ok (.cont c5out) := by rfl
  exact replan_budget_respected.2 pathsWS cfgTen "g" c5state c4oracle (.cont c5out) 0
    (initNode (mkSimpleTask "task-1" "A" [])) hstep (by rfl) (by rfl) (by rfl)
    (by decide) (Or.inl (by rfl))

/-- C10: a pending node with a dependency id that matches no node of
the graph is never selected (part one: every selected node has all of
its dependency ids resolving to done nodes), and when every pending
node is in that situation and nothing is in progress, the next loop
iteration exits with graph status blocked instead of dispatching or
spinning down the iteration budget (part two). -/
theorem unresolved_dependency_blocks_run :
    (∀ (nodes : List ActiveTaskNodeState) (t : ActiveTaskNodeState),
      getNextRunnableTask nodes = some t →
      t.status = .pending ∧ ∀ d ∈ t.depends_on, ∃ m ∈ nodes, m.id = d ∧ m.status = .done) ∧
    (∀ (paths : WorkspacePaths) (config : AutonomousRuntimeConfig) (goal : String)
       (oracles : Nat → IterOracle) (i fuel : Nat) (s : EngineState),
      (∀ n ∈ s.nodes, n.status = .pending → ∃ d ∈ n.depends_on, ∀ m ∈ s.nodes, m.id ≠ d) →
      (∃ n ∈ s.nodes, n.status = .pending) →
      (∀ n ∈ s.nodes, n.status ≠ .in_progress) →
      getNextRunnableTask s.nodes = none ∧
      runLoopAux paths config goal oracles i (fuel + 1) s =
        .ok { s with status := .blocked, current_task_id := none }) := by
  constructor
  · intro nodes t h
    exact getNextRunnableTask_sound h
  · intro paths config goal oracles i fuel s h1 h2 h3
    have hnone : getNextRunnableIdx s.nodes = none := by
      unfold getNextRunnableIdx
      apply getNextRunnableIdxAux_none
      intro n hn
      unfold isRunnable
      by_cases hp : n.status = .pending
      · obtain ⟨d, hd, hmiss⟩ := h1 n hn hp
        have hfind : findById s.nodes d = none := by
          unfold findById
          rw [List.find?_eq_none]
          intro m hm
          simp [hmiss m (List.mem_reverse.mp hm)]
        have hall : (n.depends_on.all (fun d2 =>
            match findById s.nodes d2 with
            | some m => decide (m.status = .done)
            | none => false)) = false := by
          refine List.all_eq_false.mpr ⟨d, hd, ?_⟩
          rw [hfind]
          simp
        simp [hall]
      · simp [hp]
    have hterm : terminalStatus s.nodes = .blocked := by
      unfold terminalStatus
      rw [if_pos]
      rcases h2 with ⟨n, hn, hp⟩
      exact List.any_eq_true.mpr ⟨n, hn, by simp [hp]⟩
    refine ⟨by unfold getNextRunnableTask; rw [hnone]; rfl, ?_⟩
    have hstep : loopStep paths config goal s (oracles i) =
        .ok (.halt { s with status := .blocked, current_task_id := none }) := by
      unfold loopStep
      simp only [hnone, hterm]
    simp only [runLoopAux]
    rw [hstep]

theorem unresolved_dependency_blocks_run_witness :
    getNextRunnableTask c10state.nodes = none ∧
    runLoopAux pathsWS cfgTen "g" idleOracles 0 (3 + 1) c10state =
      .ok { c10state with status := .blocked, current_task_id := none } := by
  exact unresolved_dependency_blocks_run.2 pathsWS cfgTen "g" idleOracles 0 3 c10state
    (by decide) (by decide) (by decide)

/-- C4 (code evidence): in the replan branch, mergeReplanIntoGraph
replaces graph.nodes with fresh objects before the source marks the
triggering node failed, so that mutation lands on a discarded object:
after a replan triggered by task-1 whose new plan contains only task-2,
the merged graph consists solely of the pending task-2 and the
triggering node appears nowhere, in particular not as failed. -/
theorem replan_merge_drops_triggering_node :
    loopStep pathsWS cfgTen "g" c4state c4oracle = .ok (.cont c4afterReplan) ∧
    (∀ n ∈ c4afterReplan.nodes, n.id ≠ "task-1" ∧ n.status = .pending) ∧
    (∃ n ∈ c4state.nodes, n.id = "task-1" ∧ n.status = .pending) := by
  refine ⟨by rfl, by decide, by decide⟩

theorem sel_get {s : EngineState} {idx : Nat} {t0 : ActiveTaskNodeState}
    (hidx : getNextRunnableIdx s.nodes = some idx) (ht0 : s.nodes[idx]? = some t0) :
    ∃ hk : idx < s.nodes.length,
      s.nodes[idx] = t0 ∧ t0 ∈ s.nodes ∧ t0.status = .pending := by
  obtain ⟨hk, hrun⟩ := getNextRunnableIdx_spec hidx
  have hget : s.nodes[idx] = t0 := by
    rw [List.getElem?_eq_getElem hk] at ht0
    exact Option.some.inj ht0
  have hmem : t0 ∈ s.nodes := hget ▸ List.getElem_mem hk
  have hrun2 : isRunnable s.nodes t0 = true := hget ▸ hrun
  exact ⟨hk, hget, hmem, (isRunnable_spec hrun2).1⟩

/-- C2 (amended): a node retries counter can exceed
retry_budget_per_node only through the dependency-install path (which
increments the same counter unconditionally); in any iteration without
a successful install the bound is preserved.  A retry verdict arriving
with the budget already consumed marks the node failed without
incrementing.  A failed node persists verbatim through every iteration
that performs no replan merge (a merge discards non-done nodes and may
re-introduce the same id as a fresh pending node). -/
theorem retries_bound_amended
    {paths : WorkspacePaths} {config : AutonomousRuntimeConfig} {goal : String}
    {s : EngineState} {o : IterOracle} {out : StepOut}
    (h : loopStep paths config goal s o = .ok out) :
    (installAction paths s o ≠ some .installed →
      (∀ n ∈ s.nodes, n.retries ≤ config.retry_budget_per_node) →
      ∀ n' ∈ out.state.nodes, n'.retries ≤ config.retry_budget_per_node) ∧
    (∀ idx t0, getNextRunnableIdx s.nodes = some idx → s.nodes[idx]? = some t0 →
      (validateCriticOutput o.criticRaw t0.id).verdict = .retry →
      (installAction paths s o = none ∨ installAction paths s o = some .failed) →
      config.retry_budget_per_node ≤ t0.retries →
      ∃ n' ∈ out.state.nodes, n'.id = t0.id ∧ n'.status = .failed ∧
        n'.retries = t0.retries) ∧
    (out.state.replanCount = s.replanCount →
      ∀ n ∈ s.nodes, n.status = .failed → n ∈ out.state.nodes) := by
  refine ⟨?_, ?_, ?_⟩
  · intro hni hb n' hn'
    rcases loopStep_cases h with ⟨_, rfl⟩ | ⟨idx, t0, hidx, ht0, hcase⟩
    · exact hb n' (by simpa using hn')
    · obtain ⟨hk, hget, ht0mem, ht0p⟩ := sel_get hidx ht0
      rcases hcase with ⟨dep, hmd, hname, hsub⟩ | ⟨_, happly⟩
      · rcases hsub with ⟨hst, rfl⟩ | ⟨hst, rfl⟩ | ⟨hst, happly⟩
        · have hia := installAction_eq paths hidx ht0 hmd hname
          rw [hst] at hia
          exact absurd hia hni
        · simp only [StepOut_state_cont, dispatchState_nodes, List.set_set] at hn'
          rcases List.mem_or_eq_of_mem_set hn' with hmem | rfl
          · exact hb n' hmem
          · exact hb t0 ht0mem
        · rcases applyVerdict_cases happly with ⟨tNew, rfl, hv⟩ | ⟨plan, _, _, _, rfl⟩
          · simp only [StepOut_state_cont, dispatchState_nodes, List.set_set] at hn'
            rcases List.mem_or_eq_of_mem_set hn' with hmem | rfl
            · exact hb n' hmem
            · rcases hv with ⟨_, _, rfl⟩ | ⟨_, hlt, rfl⟩ | ⟨_, _, rfl⟩ | ⟨_, _, rfl⟩ | ⟨_, _, _, rfl⟩
              · exact hb t0 ht0mem
              · exact hlt
              · exact hb t0 ht0mem
              · exact hb t0 ht0mem
              · exact hb t0 ht0mem
          · simp only [StepOut_state_cont] at hn'
            rcases mem_mergeReplanIntoGraph hn' with ⟨hmem, _⟩ | ⟨t, _, rfl⟩
            · simp only [dispatchState_nodes] at hmem
              rcases List.mem_or_eq_of_mem_set hmem with hmem2 | rfl
              · exact hb n' hmem2
              · exact hb t0 ht0mem
            · exact Nat.zero_le _
      · rcases applyVerdict_cases happly with ⟨tNew, rfl, hv⟩ | ⟨plan, _, _, _, rfl⟩
        · simp only [StepOut_state_cont, dispatchState_nodes, List.set_set] at hn'
          rcases List.mem_or_eq_of_mem_set hn' with hmem | rfl
          · exact hb n' hmem
          · rcases hv with ⟨_, _, rfl⟩ | ⟨_, hlt, rfl⟩ | ⟨_, _, rfl⟩ | ⟨_, _, rfl⟩ | ⟨_, _, _, rfl⟩
            · exact hb t0 ht0mem
            · exact hlt
            · exact hb t0 ht0mem
            · exact hb t0 ht0mem
            · exact hb t0 ht0mem
        · simp only [StepOut_state_cont] at hn'
          rcases mem_mergeReplanIntoGraph hn' with ⟨hmem, _⟩ | ⟨t, _, rfl⟩
          · simp only [dispatchState_nodes] at hmem
            rcases List.mem_or_eq_of_mem_set hmem with hmem2 | rfl
            · exact hb n' hmem2
            · exact hb t0 ht0mem
          · exact Nat.zero_le _
  · intro idx t0 hidx ht0 hretry hinst hbud
    have hretryIn : (validateCriticOutput o.criticRaw (tInOf t0).id).verdict = .retry := hretry
    rcases loopStep_cases h with ⟨hnone, _⟩ | ⟨idx2, t02, hidx2, ht02, hcase⟩
    · rw [hidx] at hnone; cases hnone
    · have hsame : idx = idx2 := Option.some.inj (hidx.symm.trans hidx2)
      subst hsame
      have hsame2 : t0 = t02 := Option.some.inj (ht0.symm.trans ht02)
      subst hsame2
      obtain ⟨hk, hget, ht0mem, ht0p⟩ := sel_get hidx ht0
      rcases hcase with ⟨dep, hmd, hname, hsub⟩ | ⟨_, happly⟩
      · have hia := installAction_eq paths hidx ht0 hmd hname
        rcases hsub with ⟨hst, _⟩ | ⟨hst, _⟩ | ⟨hst, happly⟩
        · rw [hst] at hia
          rcases hinst with hn | hf
          · rw [hia] at hn; cases hn
          · rw [hia] at hf; cases hf
        · rw [hst] at hia
          rcases hinst with hn | hf
          · rw [hia] at hn; cases hn
          · rw [hia] at hf; cases hf
        · rcases applyVerdict_cases happly with ⟨tNew, rfl, hv⟩ | ⟨plan, hverd, _, _, _⟩
          · rcases hv with ⟨hp, _, _⟩ | ⟨_, hlt, _⟩ | ⟨_, hnlt, rfl⟩ | ⟨hr, _, _⟩ | ⟨_, hnr, _, _⟩
            · rw [hretryIn] at hp; exact absurd hp (by decide)
            · exact absurd hlt (Nat.not_lt_of_le hbud)
            · exact ⟨{ tInOf t0 with
                         critic_issues :=
                           some (validateCriticOutput o.criticRaw (tInOf t0).id).issues,
                         status := NodeStatus.failed },
                     by simp only [StepOut_state_cont, dispatchState_nodes, List.set_set]
                        exact mem_set_self _ idx _ hk,
                     rfl, rfl, rfl⟩
            · rw [hretryIn] at hr; exact absurd hr (by decide)
            · exact absurd hretryIn hnr
          · rw [hretryIn] at hverd; exact absurd hverd (by decide)
      · rcases applyVerdict_cases happly with ⟨tNew, rfl, hv⟩ | ⟨plan, hverd, _, _, _⟩
        · rcases hv with ⟨hp, _, _⟩ | ⟨_, hlt, _⟩ | ⟨_, hnlt, rfl⟩ | ⟨hr, _, _⟩ | ⟨_, hnr, _, _⟩
          · rw [hretryIn] at hp; exact absurd hp (by decide)
          · exact absurd hlt (Nat.not_lt_of_le hbud)
          · exact ⟨{ tInOf t0 with
                       critic_issues :=
                         some (validateCriticOutput o.criticRaw (tInOf t0).id).issues,
                       status := NodeStatus.failed },
                   by simp only [StepOut_state_cont, dispatchState_nodes, List.set_set]
                      exact mem_set_self _ idx _ hk,
                   rfl, rfl, rfl⟩
          · rw [hretryIn] at hr; exact absurd hr (by decide)
          · exact absurd hretryIn hnr
        · rw [hretryIn] at hverd; exact absurd hverd (by decide)
  · intro hrc n hn hfail
    rcases loopStep_cases h with ⟨_, rfl⟩ | ⟨idx, t0, hidx, ht0, hcase⟩
    · simpa using hn
    · obtain ⟨hk, hget, ht0mem, ht0p⟩ := sel_get hidx ht0
      have hne : ∀ hlen : idx < s.nodes.length, n ≠ s.nodes[idx] := by
        intro hlen hcon
        rw [hget] at hcon
        rw [hcon] at hfail
        rw [ht0p] at hfail
        cases hfail
      rcases hcase with ⟨dep, hmd, hname, hsub⟩ | ⟨_, happly⟩
      · rcases hsub with ⟨hst, rfl⟩ | ⟨hst, rfl⟩ | ⟨hst, happly⟩
        · simp only [StepOut_state_cont, dispatchState_nodes, List.set_set]
          exact mem_set_of_ne _ _ _ _ hn hne
        · simp only [StepOut_state_cont, dispatchState_nodes, List.set_set]
          exact mem_set_of_ne _ _ _ _ hn hne
        · rcases applyVerdict_cases happly with ⟨tNew, rfl, hv⟩ | ⟨plan, _, _, _, rfl⟩
          · simp only [StepOut_state_cont, dispatchState_nodes, List.set_set]
            exact mem_set_of_ne _ _ _ _ hn hne
          · have hcontra : s.replanCount + 1 = s.replanCount := hrc
            exact absurd hcontra (Nat.succ_ne_self _)
      · rcases applyVerdict_cases happly with ⟨tNew, rfl, hv⟩ | ⟨plan, _, _, _, rfl⟩
        · simp only [StepOut_state_cont, dispatchState_nodes, List.set_set]
          exact mem_set_of_ne _ _ _ _ hn hne
        · have hcontra : s.replanCount + 1 = s.replanCount := hrc
          exact absurd hcontra (Nat.succ_ne_self _)

theorem retries_bound_amended_witness :
    (∀ n' ∈ (StepOut.cont c1outState).state.nodes,
      n'.retries ≤ cfgTen.retry_budget_per_node) ∧
    (∀ n ∈ c4state.nodes, n.status = .failed →
      n ∈ (StepOut.cont c1outState).state.nodes) := by
  have hstep : loopStep pathsWS cfgTen "g" c4state c1oracle = .ok (.cont c1outState) := by
    rfl
  refine ⟨(retries_bound_amended hstep).1 (by decide) (by decide), ?_⟩
  exact (retries_bound_amended hstep).2.2 (by rfl)

/-- C2 (counterexample): with retry_budget_per_node zero, one
successful dependency install already leaves task-1 pending with
retries 1, exceeding the budget; the subsequent retry verdict fails the
node; and the later replan merge brings the failed id back as a fresh
pending node with zero retries. -/
theorem retries_exceed_budget_counterexample :
    runLoopAux pathsWS cfgRetryZero "g" c2oracles 0 1 c2state = .ok c2afterInstall ∧
    (∃ n ∈ c2afterInstall.nodes, n.id = "task-1" ∧
      cfgRetryZero.retry_budget_per_node < n.retries ∧ n.status = .pending) ∧
    runLoopAux pathsWS cfgRetryZero "g" c2oracles 0 2 c2state = .ok c2afterRetry ∧
    (∃ n ∈ c2afterRetry.nodes, n.id = "task-1" ∧ n.status = .failed) ∧
    runLoopAux pathsWS cfgRetryZero "g" c2oracles 0 3 c2state = .ok c2afterReplan ∧
    (∃ n ∈ c2afterReplan.nodes, n.id = "task-1" ∧ n.status = .pending ∧ n.retries = 0) := by
  exact ⟨by rfl, by decide, by rfl, by decide, by rfl, by decide⟩

/-- C6: the escalator escalates exactly when there is no install
command, or the root flag is set, or the command matches the privileged
package-manager pattern, appending exactly one structured entry;
otherwise it runs the command, reporting installed on exit code zero
and failed otherwise; on escalation the engine blocks the owning node
and appends the entry to the install-requirements document; and the
3-node A-B-C scenario with a root-required ffmpeg dependency on C ends
with run status blocked, node C blocked, and exactly one ffmpeg entry
in the document. -/
theorem dependency_escalation_behaviour :
    (∀ (paths : WorkspacePaths) (task : ActiveTaskNodeState)
       (dep : ExecutorDependencyHint) (shell : Except String ShellResult),
      (dep.install_command.getD "" = "" ∨ dep.requires_root = true ∨
        includesRootLevelInstall (dep.install_command.getD "") = true) →
      (attemptUserSpaceInstall paths task dep shell).1.status = .escalated ∧
      (attemptUserSpaceInstall paths task dep shell).2 = [mkInstallRequirement task dep]) ∧
    (∀ (paths : WorkspacePaths) (task : ActiveTaskNodeState)
       (dep : ExecutorDependencyHint) (r : ShellResult),
      ¬(dep.install_command.getD "" = "" ∨ dep.requires_root = true ∨
        includesRootLevelInstall (dep.install_command.getD "") = true) →
      ((r.exitCode = 0 →
        (attemptUserSpaceInstall paths task dep (.ok r)).1.status = .installed) ∧
       (r.exitCode ≠ 0 →
        (attemptUserSpaceInstall paths task dep (.ok r)).1.status = .failed))) ∧
    (∀ (paths : WorkspacePaths) (config : AutonomousRuntimeConfig) (goal : String)
       (s : EngineState) (o : IterOracle) (out : StepOut) (idx : Nat)
       (t0 : ActiveTaskNodeState) (dep : ExecutorDependencyHint),
      loopStep paths config goal s o = .ok out →
      getNextRunnableIdx s.nodes = some idx → s.nodes[idx]? = some t0 →
      (validateExecutorOutput o.executorRaw t0.id).missing_dependency = some dep →
      dep.name ≠ "" →
      (attemptUserSpaceInstall paths (tInOf t0) dep o.shell).1.status = .escalated →
      (∃ n' ∈ out.state.nodes, n'.id = t0.id ∧ n'.status = .blocked) ∧
      out.state.installDoc = s.installDoc ++ [mkInstallRequirement (tInOf t0) dep]) ∧
    ((runAutonomousV3 pathsWS cfgTen "convert the video" (some c6plannerJson) c6oracles).map
        AutonomousRunResult.graph = .ok c6final ∧
      c6final.status = .blocked ∧
      (∃ n ∈ c6final.nodes, n.id = "task-c" ∧ n.status = .blocked) ∧
      (c6final.installDoc.filter (fun e => decide (e.name = "ffmpeg"))).length = 1 ∧
      c6final.installDoc.length = 1) := by
  refine ⟨?_, ?_, ?_, ?_⟩
  · intro paths task dep shell hcond
    have hesc : (attemptUserSpaceInstall paths task dep shell).1.status = .escalated :=
      attempt_escalated_iff.mpr hcond
    exact ⟨hesc, attempt_escalated_snd hesc⟩
  · intro paths task dep r hncond
    have hb : (decide (dep.install_command.getD "" = "") ||
        (dep.requires_root || includesRootLevelInstall (dep.install_command.getD ""))) = false := by
      cases hbv : (decide (dep.install_command.getD "" = "") ||
          (dep.requires_root || includesRootLevelInstall (dep.install_command.getD ""))) with
      | false => rfl
      | true =>
        exfalso
        apply hncond
        rcases Bool.or_eq_true _ _ |>.mp hbv with h1 | h2
        · exact Or.inl (by simpa using h1)
        · rcases Bool.or_eq_true _ _ |>.mp h2 with h3 | h4
          · exact Or.inr (Or.inl h3)
          · exact Or.inr (Or.inr h4)
    constructor
    · intro h0
      simp [attemptUserSpaceInstall, hb, h0]
    · intro hne0
      simp [attemptUserSpaceInstall, hb, hne0]
  · intro paths config goal s o out idx t0 dep h hidx ht0 hmd hname hesc
    rcases loopStep_cases h with ⟨hnone, _⟩ | ⟨idx2, t02, hidx2, ht02, hcase⟩
    · rw [hidx] at hnone; cases hnone
    · have hsame : idx = idx2 := Option.some.inj (hidx.symm.trans hidx2)
      subst hsame
      have hsame2 : t0 = t02 := Option.some.inj (ht0.symm.trans ht02)
      subst hsame2
      obtain ⟨hk, hget, ht0mem, ht0p⟩ := sel_get hidx ht0
      rcases hcase with ⟨dep2, hmd2, hname2, hsub⟩ | ⟨hreason, _⟩
      · have hdepeq : dep2 = dep := Option.some.inj (hmd2.symm.trans hmd)
        subst hdepeq
        rcases hsub with ⟨hst, rfl⟩ | ⟨hst, rfl⟩ | ⟨hst, _⟩
        · rw [hesc] at hst; exact absurd hst (by decide)
        · constructor
          · exact ⟨{ tInOf t0 with
                       status := NodeStatus.blocked,
                       critic_issues := some
                         [(attemptUserSpaceInstall paths (tInOf t0) dep2 o.shell).1.details] },
                   by simp only [StepOut_state_cont, dispatchState_nodes, List.set_set]
                      exact mem_set_self _ idx _ hk,
                   rfl, rfl⟩
          · exact congrArg (fun l => s.installDoc ++ l) (attempt_escalated_snd hesc)
        · rw [hesc] at hst; exact absurd hst (by decide)
      · rcases hreason with hnone2 | ⟨dep2, hmd2, hempty⟩
        · rw [hmd] at hnone2; cases hnone2
        · have hdepeq : dep2 = dep := Option.some.inj (hmd2.symm.trans hmd)
          subst hdepeq
          exact absurd hempty hname
  · exact ⟨rfl, rfl, by decide, by decide, by decide⟩

theorem dependency_escalation_behaviour_witness :
    (attemptUserSpaceInstall pathsWS (initNode (mkSimpleTask "task-c" "C" []))
        ffmpegHint noShell).1.status = .escalated ∧
    (attemptUserSpaceInstall pathsWS (initNode (mkSimpleTask "task-c" "C" []))
        ffmpegHint noShell).2 =
      [mkInstallRequirement (initNode (mkSimpleTask "task-c" "C" [])) ffmpegHint] := by
  exact dependency_escalation_behaviour.1 pathsWS (initNode (mkSimpleTask "task-c" "C" []))
    ffmpegHint noShell (Or.inr (Or.inl rfl))

/-- C7 (code evidence): the planner validator returns the single
fallback task, whose id is the module-wide fallback id and whose title
is the goal text, for an unparseable response, a non-object response
and a response retaining zero valid tasks, giving a one-node graph; but
a parseable object whose tasks array contains a JSON null makes the
source throw a TypeError while reading the id property of the null
element, modelled here by the error result, contradicting the claimed
never-raises contract. -/
theorem planner_fallback_and_null_crash (goal : String) (config : AutonomousRuntimeConfig) :
    validatePlannerOutput none goal config = .ok (fallbackInvalidPlan goal) ∧
    validatePlannerOutput (some (.str "garbage")) goal config = .ok (fallbackInvalidPlan goal) ∧
    validatePlannerOutput (some c7zeroJson) goal config = .ok (fallbackNoValidPlan goal) ∧
    (fallbackInvalidPlan goal).tasks = [fallbackTask goal] ∧
    (fallbackNoValidPlan goal).tasks = [fallbackTask goal] ∧
    (fallbackTask goal).id = FALLBACK_TASK_ID ∧
    (fallbackTask goal).title = goal ∧
    ((fallbackNoValidPlan goal).tasks.map initNode).length = 1 ∧
    validatePlannerOutput (some c7crashJson) goal config = .error () := by
  exact ⟨rfl, rfl, rfl, rfl, rfl, rfl, rfl, rfl, rfl⟩

theorem validatePlannerOutput_ok_elim {j : Json} {goal : String}
    {config : AutonomousRuntimeConfig} {plan : PlannerOutput}
    (h : validatePlannerOutput (some j) goal config = .ok plan) :
    plan.tasks = [fallbackTask goal] ∨
    ∃ st, plannerScan 0 (rawTasksOf j) ⟨[], [], []⟩ = .ok st ∧
      plan.tasks = (st.drafts.map (resolveTask st.idMap)).take config.max_tasks_per_plan := by
  unfold validatePlannerOutput at h
  split at h
  · cases h
    exact Or.inl rfl
  · rename_i j2 heq
    injection heq with heq2
    subst heq2
    split at h
    · cases h
      exact Or.inl rfl
    · split at h
      · exact Except.noConfusion h
      · rename_i st hscan
        dsimp only at h
        split at h
        · cases h
          exact Or.inl rfl
        · cases h
          exact Or.inr ⟨st, hscan, rfl⟩

/-- C3 (amended): after validation every retained depends_on list is
duplicate-free and self-reference-free, and each entry is the sanitized
id of some declared raw task; declared includes tasks later dropped for
an empty title, and truncation happens after resolution, so an entry
may reference a task absent from the final plan, and no acyclicity
check is performed. -/
theorem depends_on_resolution_amended {j : Json} {goal : String}
    {config : AutonomousRuntimeConfig} {plan : PlannerOutput}
    (h : validatePlannerOutput (some j) goal config = .ok plan) :
    ∀ t ∈ plan.tasks, t.depends_on.Nodup ∧
      ∀ d ∈ t.depends_on, d ≠ t.id ∧ d ∈ sidsFrom 0 (rawTasksOf j) := by
  intro t ht
  rcases validatePlannerOutput_ok_elim h with hfb | ⟨st, hscan, htasks⟩
  · rw [hfb] at ht
    simp only [List.mem_singleton] at ht
    subst ht
    refine ⟨List.nodup_nil, ?_⟩
    intro d hd
    simp [fallbackTask] at hd
  · rw [htasks] at ht
    have ht2 := List.mem_of_mem_take ht
    obtain ⟨d0, hd0, rfl⟩ := List.mem_map.mp ht2
    refine ⟨resolveDeps_nodup _ _, ?_⟩
    intro d hd
    have hmem := mem_resolveDeps hd
    refine ⟨hmem.1, ?_⟩
    obtain ⟨p, hp, hpv⟩ := hmem.2
    have hval := plannerScan_idMap _ _ _ _ hscan (by intro q hq; simp at hq) p hp
    have huniq := (plannerScan_uniqueIds _ _ _ _ hscan p.2).mp hval
    rcases huniq with hinit | hsids
    · simp at hinit
    · rw [← hpv]
      exact hsids

/-- C3 (counterexample): on c3rawJson the validated plan keeps an edge
to the empty-title task-2, which is not a task of the plan, and tasks
task-1 and task-3 depend on each other, a two-cycle. -/
theorem dangling_and_cyclic_depends_on :
    validatePlannerOutput (some c3rawJson) "build the report" cfgTen = .ok c3plan ∧
    (∃ t ∈ c3plan.tasks, ∃ d ∈ t.depends_on, ∀ u ∈ c3plan.tasks, u.id ≠ d) ∧
    (∃ t1 ∈ c3plan.tasks, ∃ t2 ∈ c3plan.tasks,
      t1.id ≠ t2.id ∧ t2.id ∈ t1.depends_on ∧ t1.id ∈ t2.depends_on) := by
  exact ⟨by rfl, by decide, by decide⟩

theorem depends_on_resolution_amended_witness :
    validatePlannerOutput (some c3rawJson) "build the report" cfgTen = .ok c3plan ∧
    ∀ t ∈ c3plan.tasks, t.depends_on.Nodup ∧
      ∀ d ∈ t.depends_on, d ≠ t.id ∧ d ∈ sidsFrom 0 (rawTasksOf c3rawJson) := by
  have hv : validatePlannerOutput (some c3rawJson) "build the report" cfgTen = .ok c3plan := by
    rfl
  exact ⟨hv, depends_on_resolution_amended hv⟩

/-- C9: apart from the zero-valid-tasks fallback, the validated plan
has duplicate-free ids and every retained task stems from the first raw
occurrence of its sanitized id: that occurrence has the retained title,
the title is non-empty, and no earlier raw task has the same sanitized
id. -/
theorem duplicate_ids_first_occurrence {j : Json} {goal : String}
    {config : AutonomousRuntimeConfig} {plan : PlannerOutput}
    (h : validatePlannerOutput (some j) goal config = .ok plan) :
    plan.tasks = [fallbackTask goal] ∨
    ((plan.tasks.map PlannerTask.id).Nodup ∧
      ∀ t ∈ plan.tasks, ∃ k, ∃ hk : k < (rawTasksOf j).length,
        t.id = sidAt k ((rawTasksOf j).get ⟨k, hk⟩) ∧
        t.title = titleAt ((rawTasksOf j).get ⟨k, hk⟩) ∧ t.title ≠ "" ∧
        t.id ∉ sidsFrom 0 ((rawTasksOf j).take k)) := by
  rcases validatePlannerOutput_ok_elim h with hfb | ⟨st, hscan, htasks⟩
  · exact Or.inl hfb
  · right
    obtain ⟨hnodup, _⟩ := plannerScan_drafts_nodup _ _ _ _ hscan (by simp)
      (by intro d hd; simp at hd)
    constructor
    · rw [htasks]
      have hcomp : PlannerTask.id ∘ resolveTask st.idMap = DraftTask.id :=
        funext (fun d => rfl)
      rw [List.map_take, List.map_map, hcomp]
      exact hnodup.sublist (List.take_sublist _ _)
    · intro t ht
      rw [htasks] at ht
      have ht2 := List.mem_of_mem_take ht
      obtain ⟨d0, hd0, rfl⟩ := List.mem_map.mp ht2
      have hdr := plannerScan_drafts _ _ _ _ hscan d0 hd0
      rcases hdr with hin | ⟨k, hk, hid, htitle, hne, hnotin, hpre⟩
      · simp at hin
      · refine ⟨k, hk, ?_, ?_, hne, ?_⟩
        · simpa using hid
        · simpa using htitle
        · simpa using hpre

theorem duplicate_ids_first_occurrence_witness :
    validatePlannerOutput (some c9rawJson) "g" cfgTen = .ok c9plan ∧
    (c9plan.tasks = [fallbackTask "g"] ∨
      ((c9plan.tasks.map PlannerTask.id).Nodup ∧
        ∀ t ∈ c9plan.tasks, ∃ k, ∃ hk : k < (rawTasksOf c9rawJson).length,
          t.id = sidAt k ((rawTasksOf c9rawJson).get ⟨k, hk⟩) ∧
          t.title = titleAt ((rawTasksOf c9rawJson).get ⟨k, hk⟩) ∧ t.title ≠ "" ∧
          t.id ∉ sidsFrom 0 ((rawTasksOf c9rawJson).take k))) := by
  have hv : validatePlannerOutput (some c9rawJson) "g" cfgTen = .ok c9plan := by rfl
  exact ⟨hv, duplicate_ids_first_occurrence hv⟩

/-- C8: a background task with the default budget of two attempts that
fails twice ends failed with attempts = 2 and produces exactly one
permanent-failure notification (none on the first failure, one on the
second, none on a further tick, which claims nothing); a successful
attempt instead marks the task done and delivers the engine summary. -/
theorem background_two_failures_one_notification
    (req chat route e1 e2 e3 sres : String) :
    processNextBackgroundTask [mkBgTask req chat route] (.error e1) =
      ([bgFailedN req chat route e1 1], []) ∧
    processNextBackgroundTask [bgFailedN req chat route e1 1] (.error e2) =
      ([bgFailedN req chat route e2 2],
       [BgNotification.permanentFailure "bg_1"
          (buildBackgroundFailureMessage (bgRunningN req chat route (some e1) 2) e2)]) ∧
    processNextBackgroundTask [bgFailedN req chat route e2 2] (.error e3) =
      ([bgFailedN req chat route e2 2], []) ∧
    processNextBackgroundTask [mkBgTask req chat route] (.ok sres) =
      ([bgDone1 req chat route],
       [BgNotification.completion "bg_1"
          (buildBackgroundCompletionMessage (bgRunningN req chat route none 1) sres)]) := by
  exact ⟨rfl, rfl, rfl, rfl⟩

end Oka
